import Mathlib

/-!
Verification development for the woocommerce-sync repository.

The definitions below are a shallow embedding of the Synchronization Engine:
`WooCommerceService` (remote client), `SyncService` (reconciler: `syncOrders`,
`syncOrder`, `syncProductsFromOrder`, `syncProduct`, `cleanupOldOrders`,
`cleanupUnusedProducts`) and `SyncScheduler` (`runDailySync`,
`triggerManualSync`, `triggerManualCleanup`).

Modelling conventions:
- Timestamps (ISO date strings parsed with `new Date`) are `Nat` epoch values.
- The MongoDB collections (`Order`, `Product`) are lists of records; the
  schemas declare a unique index on `wooCommerceId`, so the well-formed store
  has no two records sharing that key.  `findOneAndUpdate` with `upsert: true`
  is `upsertOrder` / `upsertProduct`; `findOneAndDelete` / `findByIdAndDelete`
  remove the first record with the key; `findOne` is `List.find?`.
- Remote calls and store-write faults are an explicit environment (`SyncEnv`,
  `CleanupEnv`): `fetchOrdersPage p` is `WooCommerceService.fetchOrders(p, 100,
  afterDate)` (the `Except.error` case is the rethrown "Failed to fetch
  orders"), `fetchProduct` is `WooCommerceService.fetchProduct`, and the
  `...WriteFails` / `...Fails` predicates inject `LocalPersistenceError`
  faults of the corresponding Mongoose calls, keyed by the record identifier.
- `logger.error` calls for caught backfill failures are counted in the
  `logged` component of the pass state (the code swallows these failures after
  logging them, so the count is the only observable trace they leave).
- The unbounded `while (true)` pagination loop is embedded with explicit fuel;
  `PassOutcome.fuelOut` is an artifact of the embedding, unreachable whenever
  the fuel exceeds the index of the first short page.
-/

/-- Embedded line item of a remote order (`WooCommerceOrder.line_items`). -/
structure OrderLineItem where
  product_id : Nat
  name : String
  quantity : Nat
  total : String
  price : String
  sku : String
deriving DecidableEq, Repr

/-- Billing address block of a remote order. -/
structure BillingAddress where
  first_name : String
  last_name : String
  address_1 : String
  address_2 : String
  city : String
  state : String
  postcode : String
  country : String
  email : String
  phone : String
deriving DecidableEq, Repr

/-- Shipping address block of a remote order. -/
structure ShippingAddress where
  first_name : String
  last_name : String
  address_1 : String
  address_2 : String
  city : String
  state : String
  postcode : String
  country : String
deriving DecidableEq, Repr

/-- Remote order payload (`WooCommerceOrder` in `WooCommerceService`). -/
structure WooCommerceOrder where
  id : Nat
  number : String
  order_key : String
  status : String
  date_created : Nat
  date_modified : Nat
  total : String
  customer_id : Nat
  customer_note : String
  billing : BillingAddress
  shipping : ShippingAddress
  line_items : List OrderLineItem
deriving DecidableEq, Repr

/-- Nested dimensions block of a remote product. -/
structure Dimensions where
  length : String
  width : String
  height : String
deriving DecidableEq, Repr

/-- Nested image entry of a remote product. -/
structure ImageEntry where
  id : Nat
  src : String
  name : String
  alt : String
deriving DecidableEq, Repr

/-- Nested category entry of a remote product. -/
structure CategoryEntry where
  id : Nat
  name : String
  slug : String
deriving DecidableEq, Repr

/-- Nested tag entry of a remote product. -/
structure TagEntry where
  id : Nat
  name : String
  slug : String
deriving DecidableEq, Repr

/-- Remote product payload (`WooCommerceProduct` in `WooCommerceService`). -/
structure WooCommerceProduct where
  id : Nat
  name : String
  slug : String
  type : String
  status : String
  featured : Bool
  catalog_visibility : String
  description : String
  short_description : String
  sku : String
  price : String
  regular_price : String
  sale_price : String
  on_sale : Bool
  purchasable : Bool
  total_sales : Nat
  virtual : Bool
  downloadable : Bool
  tax_status : String
  tax_class : String
  manage_stock : Bool
  stock_quantity : Nat
  stock_status : String
  backorders : String
  backorders_allowed : Bool
  backordered : Bool
  sold_individually : Bool
  weight : String
  dimensions : Dimensions
  shipping_required : Bool
  shipping_taxable : Bool
  shipping_class : String
  shipping_class_id : Nat
  reviews_allowed : Bool
  average_rating : String
  rating_count : Nat
  images : List ImageEntry
  categories : List CategoryEntry
  tags : List TagEntry
  date_created : Nat
  date_modified : Nat
deriving DecidableEq, Repr

/-- Local `Order` document (Mongoose `orderSchema`), fields as written by
`SyncService.syncOrder`'s `orderData`. -/
structure OrderRecord where
  wooCommerceId : Nat
  number : String
  order_key : String
  status : String
  date_created : Nat
  total : String
  customer_id : Nat
  customer_note : String
  billing : BillingAddress
  shipping : ShippingAddress
  line_items : List OrderLineItem
  last_modified : Nat
deriving DecidableEq, Repr

/-- Local `Product` document, fields as written by `SyncService.syncProduct`'s
`productData`. -/
structure ProductRecord where
  wooCommerceId : Nat
  name : String
  slug : String
  type : String
  status : String
  featured : Bool
  catalog_visibility : String
  description : String
  short_description : String
  sku : String
  price : String
  regular_price : String
  sale_price : String
  on_sale : Bool
  purchasable : Bool
  total_sales : Nat
  virtual : Bool
  downloadable : Bool
  tax_status : String
  tax_class : String
  manage_stock : Bool
  stock_quantity : Nat
  stock_status : String
  backorders : String
  backorders_allowed : Bool
  backordered : Bool
  sold_individually : Bool
  weight : String
  dimensions : Dimensions
  shipping_required : Bool
  shipping_taxable : Bool
  shipping_class : String
  shipping_class_id : Nat
  reviews_allowed : Bool
  average_rating : String
  rating_count : Nat
  images : List ImageEntry
  categories : List CategoryEntry
  tags : List TagEntry
  date_created : Nat
  date_modified : Nat
deriving DecidableEq, Repr

/-- The `orderData` mapping in `SyncService.syncOrder`: remote payload to local
document shape; `last_modified` is set to the remote `date_modified`. -/
def toOrderRecord (o : WooCommerceOrder) : OrderRecord :=
  { wooCommerceId := o.id
    number := o.number
    order_key := o.order_key
    status := o.status
    date_created := o.date_created
    total := o.total
    customer_id := o.customer_id
    customer_note := o.customer_note
    billing := o.billing
    shipping := o.shipping
    line_items := o.line_items
    last_modified := o.date_modified }

/-- The `productData` mapping in `SyncService.syncProduct`. -/
def toProductRecord (p : WooCommerceProduct) : ProductRecord :=
  { wooCommerceId := p.id
    name := p.name
    slug := p.slug
    type := p.type
    status := p.status
    featured := p.featured
    catalog_visibility := p.catalog_visibility
    description := p.description
    short_description := p.short_description
    sku := p.sku
    price := p.price
    regular_price := p.regular_price
    sale_price := p.sale_price
    on_sale := p.on_sale
    purchasable := p.purchasable
    total_sales := p.total_sales
    virtual := p.virtual
    downloadable := p.downloadable
    tax_status := p.tax_status
    tax_class := p.tax_class
    manage_stock := p.manage_stock
    stock_quantity := p.stock_quantity
    stock_status := p.stock_status
    backorders := p.backorders
    backorders_allowed := p.backorders_allowed
    backordered := p.backordered
    sold_individually := p.sold_individually
    weight := p.weight
    dimensions := p.dimensions
    shipping_required := p.shipping_required
    shipping_taxable := p.shipping_taxable
    shipping_class := p.shipping_class
    shipping_class_id := p.shipping_class_id
    reviews_allowed := p.reviews_allowed
    average_rating := p.average_rating
    rating_count := p.rating_count
    images := p.images
    categories := p.categories
    tags := p.tags
    date_created := p.date_created
    date_modified := p.date_modified }

/-- The local store: the two MongoDB collections. -/
structure Store where
  orders : List OrderRecord
  products : List ProductRecord
deriving DecidableEq, Repr

/-- The empty local store. -/
def emptyStore : Store := ⟨[], []⟩

/-- Generic `findOne` on a collection keyed by a remote identifier. -/
def lookupKey {α : Type} (key : α → Nat) (l : List α) (k : Nat) : Option α :=
  l.find? (fun x => key x == k)

/-- Generic `findOneAndUpdate(..., { upsert: true })`: replace the record with
the matching key (the unique index guarantees at most one), or insert when
absent. -/
def upsertKey {α : Type} (key : α → Nat) (l : List α) (r : α) : List α :=
  if l.any (fun x => key x == key r) then
    l.map (fun x => if key x == key r then r else x)
  else
    l ++ [r]

/-- Generic `findOneAndDelete` keyed on a remote identifier. -/
def eraseKey {α : Type} (key : α → Nat) (l : List α) (k : Nat) : List α :=
  l.eraseP (fun x => key x == k)

/-- Keys (remote identifiers) of a collection. -/
def keysOf {α : Type} (key : α → Nat) (l : List α) : List Nat :=
  l.map key

/-- `Order.findOne({ wooCommerceId: k })`. -/
def lookupOrder (os : List OrderRecord) (k : Nat) : Option OrderRecord :=
  lookupKey (fun o => o.wooCommerceId) os k

/-- `Product.findOne({ wooCommerceId: k })`. -/
def lookupProduct (ps : List ProductRecord) (k : Nat) : Option ProductRecord :=
  lookupKey (fun p => p.wooCommerceId) ps k

/-- `Order.findOneAndUpdate({ wooCommerceId }, data, { upsert: true })`. -/
def upsertOrder (os : List OrderRecord) (r : OrderRecord) : List OrderRecord :=
  upsertKey (fun o => o.wooCommerceId) os r

/-- `Product.findOneAndUpdate({ wooCommerceId }, data, { upsert: true })`. -/
def upsertProduct (ps : List ProductRecord) (r : ProductRecord) : List ProductRecord :=
  upsertKey (fun p => p.wooCommerceId) ps r

/-- `Order.findByIdAndDelete` for the document with the given remote key
(the unique index makes the key identify the document). -/
def deleteOrder (os : List OrderRecord) (k : Nat) : List OrderRecord :=
  eraseKey (fun o => o.wooCommerceId) os k

/-- `Product.findOneAndDelete({ wooCommerceId: k })`. -/
def deleteProduct (ps : List ProductRecord) (k : Nat) : List ProductRecord :=
  eraseKey (fun p => p.wooCommerceId) ps k

/-- Keys (remote identifiers) of the order collection. -/
def orderKeys (os : List OrderRecord) : List Nat :=
  keysOf (fun o => o.wooCommerceId) os

/-- Keys (remote identifiers) of the product collection. -/
def productKeys (ps : List ProductRecord) : List Nat :=
  keysOf (fun p => p.wooCommerceId) ps

/-- Environment of a sync pass: the remote source plus injected local
persistence faults.  `fetchOrdersPage p` stands for
`wooCommerceService.fetchOrders(p, 100, afterDate)` (with the pass's fixed
lookback boundary), `fetchProduct` for `wooCommerceService.fetchProduct`.
`orderWriteFails i` (resp. `productWriteFails i`) says the Mongoose upsert for
the record with remote identifier `i` throws. -/
structure SyncEnv where
  fetchOrdersPage : Nat → Except String (List WooCommerceOrder)
  fetchProduct : Nat → Except String WooCommerceProduct
  orderWriteFails : Nat → Bool
  productWriteFails : Nat → Bool

/-- `SyncService.syncProduct`: map the payload and upsert it keyed on the
remote identifier; an injected store fault makes the call throw. -/
def syncProduct (env : SyncEnv) (st : Store) (p : WooCommerceProduct) : Except Unit Store :=
  if env.productWriteFails p.id then .error ()
  else .ok { st with products := upsertProduct st.products (toProductRecord p) }

/-- The JS `[...new Set(list)]` idiom: deduplicate keeping first occurrences. -/
def uniqueIds (l : List Nat) : List Nat :=
  l.foldl (fun acc x => if acc.contains x then acc else acc ++ [x]) []

/-- Body of the per-product-identifier `try` block in
`SyncService.syncProductsFromOrder`: skip if a local record exists, otherwise
fetch the full remote record and upsert it; a fetch or upsert failure is
caught and logged (second component counts the `logger.error` call). -/
def backfillProduct (env : SyncEnv) (st : Store) (pid : Nat) : Store × Nat :=
  match lookupProduct st.products pid with
  | some _ => (st, 0)
  | none =>
    match env.fetchProduct pid with
    | .error _ => (st, 1)
    | .ok p =>
      match syncProduct env st p with
      | .error _ => (st, 1)
      | .ok st' => (st', 0)

/-- `SyncService.syncProductsFromOrder`: iterate the distinct product
identifiers of the order's line items; each identifier is processed
independently (its failures are caught inside the loop body).  Returns the
store and the number of logged backfill failures. -/
def syncProductsFromOrder (env : SyncEnv) (st : Store) (o : WooCommerceOrder) :
    Store × Nat :=
  (uniqueIds (o.line_items.map (fun it => it.product_id))).foldl
    (fun acc pid =>
      let r := backfillProduct env acc.1 pid
      (r.1, acc.2 + r.2))
    (st, 0)

/-- `SyncService.syncOrder`: upsert the mapped order keyed on its remote
identifier (an injected store fault makes it throw, skipping the backfill),
then backfill referenced products. -/
def syncOrder (env : SyncEnv) (st : Store) (o : WooCommerceOrder) :
    Except Unit (Store × Nat) :=
  if env.orderWriteFails o.id then .error ()
  else
    .ok (syncProductsFromOrder env
      { st with orders := upsertOrder st.orders (toOrderRecord o) } o)

/-- Mutable state of a sync pass: the store plus the `synced` and `errors`
tallies, the count of logged (swallowed) backfill failures, and the number of
page-fetch calls made so far. -/
structure PassState where
  store : Store
  synced : Nat
  errors : Nat
  logged : Nat
  fetchCalls : Nat
deriving DecidableEq, Repr

/-- Per-record body of the loop in `SyncService.syncOrders`: a successful
`syncOrder` increments `synced`; a thrown order upsert is caught and
increments `errors`. -/
def processOrder (env : SyncEnv) (st : PassState) (o : WooCommerceOrder) : PassState :=
  match syncOrder env st.store o with
  | .ok r => { st with store := r.1, synced := st.synced + 1, logged := st.logged + r.2 }
  | .error _ => { st with errors := st.errors + 1 }

/-- Processing of one fetched page, record by record. -/
def processPage (env : SyncEnv) (st : PassState) (page : List WooCommerceOrder) : PassState :=
  page.foldl (processOrder env) st

/-- The fixed page size of `SyncService.syncOrders` (`perPage = 100`). -/
def perPage : Nat := 100

/-- Outcome of a sync pass: normal completion, the rethrown page-fetch
failure, or fuel exhaustion (an artifact of embedding the `while (true)`
loop).  Each outcome carries the state (committed store and tallies) at the
point the pass ended. -/
inductive PassOutcome where
  | ok (st : PassState)
  | fetchFailed (st : PassState)
  | fuelOut (st : PassState)
deriving DecidableEq, Repr

/-- The pass state carried by an outcome. -/
def PassOutcome.state : PassOutcome → PassState
  | .ok st => st
  | .fetchFailed st => st
  | .fuelOut st => st

/-- Whether the outcome is normal completion. -/
def PassOutcome.isOkOutcome : PassOutcome → Bool
  | .ok _ => true
  | _ => false

/-- Whether the outcome is the rethrown page-fetch failure. -/
def PassOutcome.isFetchFailed : PassOutcome → Bool
  | .fetchFailed _ => true
  | _ => false

/-- Whether an `Except` value is the error case. -/
def exceptFailed {ε α : Type} : Except ε α → Bool
  | .error _ => true
  | .ok _ => false

/-- The `while (true)` pagination loop of `SyncService.syncOrders`: fetch page
`page`; a fetch failure is rethrown past the pass boundary; an empty page ends
the pass before processing; otherwise process the page and stop if it was
short, else advance to the next page. -/
def syncLoop (env : SyncEnv) : Nat → Nat → PassState → PassOutcome
  | 0, _, st => .fuelOut st
  | fuel + 1, page, st =>
    match env.fetchOrdersPage page with
    | .error _ => .fetchFailed st
    | .ok orders =>
      let st1 : PassState := { st with fetchCalls := st.fetchCalls + 1 }
      if orders.length = 0 then .ok st1
      else
        let st2 := processPage env st1 orders
        if orders.length < perPage then .ok st2
        else syncLoop env fuel (page + 1) st2

/-- Initial pass state over a given store. -/
def initState (s : Store) : PassState :=
  { store := s, synced := 0, errors := 0, logged := 0, fetchCalls := 0 }

/-- `SyncService.syncOrders`: run the pagination loop from page 1 with fresh
tallies. -/
def syncOrders (env : SyncEnv) (fuel : Nat) (s : Store) : PassOutcome :=
  syncLoop env fuel 1 (initState s)

/-- Environment of a retention pass: injected deletion faults, keyed by the
record's remote identifier. -/
structure CleanupEnv where
  deleteOrderFails : Nat → Bool
  deleteProductFails : Nat → Bool

/-- Whether an order's line items reference the product identifier
(the `{ 'line_items.product_id': pid }` query). -/
def referencesProduct (o : OrderRecord) (pid : Nat) : Bool :=
  o.line_items.any (fun it => it.product_id == pid)

/-- Phase-1 body of `SyncService.cleanupOldOrders` for one selected order:
collect its line items' product identifiers into the candidate set (the
`forEach` runs before the delete, so collection happens even when the delete
throws), then delete the order; a thrown delete is caught and leaves the order
in place. -/
def phase1Step (env : CleanupEnv) (acc : List OrderRecord × Nat × List Nat)
    (o : OrderRecord) : List OrderRecord × Nat × List Nat :=
  let cand := o.line_items.foldl
    (fun c it => if c.contains it.product_id then c else c ++ [it.product_id]) acc.2.2
  if env.deleteOrderFails o.wooCommerceId then (acc.1, acc.2.1, cand)
  else (deleteOrder acc.1 o.wooCommerceId, acc.2.1 + 1, cand)

/-- `SyncService.cleanupUnusedProducts`: for each candidate identifier, if no
remaining order references it, delete the product; check and delete are
wrapped in a per-identifier `try`, so an injected delete fault leaves the
product in place and the counter untouched. -/
def cleanupUnusedProducts (env : CleanupEnv) (os : List OrderRecord)
    (ps : List ProductRecord) (pids : List Nat) : List ProductRecord × Nat :=
  pids.foldl
    (fun acc pid =>
      match os.find? (fun o => referencesProduct o pid) with
      | some _ => acc
      | none =>
        if env.deleteProductFails pid then acc
        else (deleteProduct acc.1 pid, acc.2 + 1))
    (ps, 0)

/-- `SyncService.cleanupOldOrders`: select orders with `last_modified` older
than the retention threshold, delete them while collecting referenced product
identifiers (phase 1), then prune candidates no longer referenced by any
remaining order (phase 2).  Returns the store, `deletedOrders`, and
`deletedProducts`. -/
def cleanupOldOrders (env : CleanupEnv) (threshold : Nat) (s : Store) :
    Store × Nat × Nat :=
  let ordersToDelete := s.orders.filter (fun o => o.last_modified < threshold)
  let r1 := ordersToDelete.foldl (phase1Step env) (s.orders, 0, [])
  let r2 := cleanupUnusedProducts env r1.1 s.products r1.2.2
  (⟨r1.1, r2.1⟩, r1.2.1, r2.2)

/-- `SyncScheduler.runDailySync`: the scheduled cycle first runs the
connectivity test (`SyncService.testConnection`, a boolean that never
throws); on failure it only logs the skip and returns — the sync pass is not
invoked and no outcome is recorded (`none`).  Otherwise it runs the pass; any
thrown fatal error is caught and logged inside the scheduler.  Returns the
store and the recorded pass outcome, `none` when the cycle was skipped. -/
def runDailySync (env : SyncEnv) (connOk : Bool) (fuel : Nat) (s : Store) :
    Store × Option PassOutcome :=
  if connOk then
    let r := syncOrders env fuel s
    (r.state.store, some r)
  else (s, none)

/-- `SyncScheduler.triggerManualSync`: run the Reconciler's sync pass directly
(no cadence, no connectivity gate) and return its result. -/
def triggerManualSync (env : SyncEnv) (fuel : Nat) (s : Store) : PassOutcome :=
  syncOrders env fuel s

/-- `SyncScheduler.triggerManualCleanup`: run the retention pass directly and
return its result. -/
def triggerManualCleanup (env : CleanupEnv) (threshold : Nat) (s : Store) :
    Store × Nat × Nat :=
  cleanupOldOrders env threshold s

/-- Store effect of processing one order inside the page loop (the tallies
stripped away). -/
def orderStoreStep (env : SyncEnv) (s : Store) (o : WooCommerceOrder) : Store :=
  match syncOrder env s o with
  | .ok r => r.1
  | .error _ => s

/-- Store effect of processing a list of orders in sequence. -/
def applyOrders (env : SyncEnv) (s : Store) (L : List WooCommerceOrder) : Store :=
  L.foldl (orderStoreStep env) s

/-- Product-store effect of one backfill attempt (the log count stripped). -/
def backfillP (env : SyncEnv) (ps : List ProductRecord) (pid : Nat) : List ProductRecord :=
  match lookupProduct ps pid with
  | some _ => ps
  | none =>
    match env.fetchProduct pid with
    | .error _ => ps
    | .ok p =>
      if env.productWriteFails p.id then ps else upsertProduct ps (toProductRecord p)

/-- Product-store effect of a sequence of backfill attempts. -/
def productsAfter (env : SyncEnv) (ps : List ProductRecord) (pids : List Nat) :
    List ProductRecord :=
  pids.foldl (backfillP env) ps

/-- Order-store effect of processing a list of orders. -/
def ordersAfter (env : SyncEnv) (os : List OrderRecord) (L : List WooCommerceOrder) :
    List OrderRecord :=
  L.foldl
    (fun os o => if env.orderWriteFails o.id then os else upsertOrder os (toOrderRecord o)) os

/-- The distinct product identifiers referenced by an order's line items. -/
def orderPids (o : WooCommerceOrder) : List Nat :=
  uniqueIds (o.line_items.map (fun it => it.product_id))

/-- The product-identifier attempts a list of orders generates, in order:
skipped entirely for an order whose own upsert threw. -/
def backfillPids (env : SyncEnv) (L : List WooCommerceOrder) : List Nat :=
  L.foldl (fun acc o => if env.orderWriteFails o.id then acc else acc ++ orderPids o) []

/-- Constructor tag of an outcome, used to state that the control flow of the
pagination loop depends only on the environment. -/
def PassOutcome.tag : PassOutcome → Nat
  | .ok _ => 0
  | .fetchFailed _ => 1
  | .fuelOut _ => 2

/-- The candidate identifier list phase 1 collects: distinct line-item product
identifiers of the selected (stale) orders, in first-seen order. -/
def retentionCandidates (threshold : Nat) (os : List OrderRecord) : List Nat :=
  (os.filter (fun o => o.last_modified < threshold)).foldl
    (fun c o => o.line_items.foldl
      (fun c it => if c.contains it.product_id then c else c ++ [it.product_id]) c) []

/-- One pass over the store: a sync pass with its environment and fuel, or a
retention pass with its environment and threshold. -/
inductive StorePass where
  | sync (env : SyncEnv) (fuel : Nat)
  | retention (env : CleanupEnv) (threshold : Nat)

/-- Store effect of one pass (the committed store, whatever the outcome). -/
def applyPass (s : Store) : StorePass → Store
  | .sync env fuel => (syncOrders env fuel s).state.store
  | .retention env threshold => (cleanupOldOrders env threshold s).1

/-- First-some choice on options (used to characterise last-wins upserts). -/
def optOr {A : Type} : Option A → Option A → Option A
  | some x, _ => some x
  | none, b => b

/-- The record written last for key `k` while processing the stream `L`
(skipping records whose upsert throws). -/
def lastUpserted (env : SyncEnv) (k : Nat) : List WooCommerceOrder → Option OrderRecord
  | [] => none
  | o :: L =>
    optOr (lastUpserted env k L)
      (if env.orderWriteFails o.id then none
       else if o.id = k then some (toOrderRecord o) else none)

/-- A backfill attempt for this identifier can never produce a local record:
either the remote fetch fails or the local write throws. -/
def backfillStuck (env : SyncEnv) (pid : Nat) : Prop :=
  match env.fetchProduct pid with
  | .error _ => True
  | .ok p => env.productWriteFails p.id = true

/-- Empty billing block for concrete test fixtures. -/
def billing0 : BillingAddress := ⟨"", "", "", "", "", "", "", "", "", ""⟩

/-- Empty shipping block for concrete test fixtures. -/
def shipping0 : ShippingAddress := ⟨"", "", "", "", "", "", "", ""⟩

/-- A minimal line item referencing the given product identifier. -/
def mkItem (pid : Nat) : OrderLineItem := ⟨pid, "", 1, "", "", ""⟩

/-- A minimal remote order with the given identifier and line items. -/
def mkOrder (i : Nat) (items : List OrderLineItem) : WooCommerceOrder :=
  ⟨i, "", "", "", 0, 0, "", 0, "", billing0, shipping0, items⟩

/-- A minimal remote product with the given identifier. -/
def mkProduct (i : Nat) : WooCommerceProduct :=
  { id := i, name := "", slug := "", type := "", status := "", featured := false,
    catalog_visibility := "", description := "", short_description := "", sku := "",
    price := "", regular_price := "", sale_price := "", on_sale := false,
    purchasable := false, total_sales := 0, virtual := false, downloadable := false,
    tax_status := "", tax_class := "", manage_stock := false, stock_quantity := 0,
    stock_status := "", backorders := "", backorders_allowed := false,
    backordered := false, sold_individually := false, weight := "",
    dimensions := ⟨"", "", ""⟩, shipping_required := false, shipping_taxable := false,
    shipping_class := "", shipping_class_id := 0, reviews_allowed := false,
    average_rating := "", rating_count := 0, images := [], categories := [],
    tags := [], date_created := 0, date_modified := 0 }

/-- Remote serving one order (identifier 1) referencing product 7, whose
product fetch always fails; no local write faults. -/
def envC4 : SyncEnv :=
  { fetchOrdersPage := fun p => if p = 1 then .ok [mkOrder 1 [mkItem 7]] else .ok []
    fetchProduct := fun _ => .error ("remote down")
    orderWriteFails := fun _ => false
    productWriteFails := fun _ => false }

/-- Remote serving 150 orders as a full page of 100 and a short page of 50;
a third page request would fail, so a correct pass must never issue it. -/
def env150 : SyncEnv :=
  { fetchOrdersPage := fun p =>
      if p = 1 then .ok ((List.range 100).map (fun i => mkOrder i []))
      else if p = 2 then .ok ((List.range 50).map (fun i => mkOrder (100 + i) []))
      else .error ("no third page")
    fetchProduct := fun _ => .error ("unused")
    orderWriteFails := fun _ => false
    productWriteFails := fun _ => false }

/-- A page of three orders, and an environment in which only the second
order's upsert throws. -/
def page3 : List WooCommerceOrder := [mkOrder 1 [], mkOrder 2 [], mkOrder 3 []]

/-- Environment in which only the record with identifier 2 has a write fault. -/
def env3 : SyncEnv :=
  { fetchOrdersPage := fun p => if p = 1 then .ok page3 else .ok []
    fetchProduct := fun _ => .error ("unused")
    orderWriteFails := fun i => i == 2
    productWriteFails := fun _ => false }

/-- Remote serving one order referencing product 5, with product 5 fetchable;
no faults anywhere. -/
def envC5 : SyncEnv :=
  { fetchOrdersPage := fun p => if p = 1 then .ok [mkOrder 1 [mkItem 5]] else .ok []
    fetchProduct := fun k => if k = 5 then .ok (mkProduct 5) else .error ("absent")
    orderWriteFails := fun _ => false
    productWriteFails := fun _ => false }

/-- Remote serving a full first page of 100 records and failing on page 2. -/
def envC7 : SyncEnv :=
  { fetchOrdersPage := fun p =>
      if p = 1 then .ok ((List.range 100).map (fun i => mkOrder i []))
      else .error ("network failure")
    fetchProduct := fun _ => .error ("unused")
    orderWriteFails := fun _ => false
    productWriteFails := fun _ => false }

/-- Retention environment with no injected deletion faults. -/
def cenvOK : CleanupEnv := ⟨fun _ => false, fun _ => false⟩

/-- Store holding one stale order (last modified at time 0) referencing
product 10, and the product-10 catalog record. -/
def stC1 : Store :=
  ⟨[toOrderRecord (mkOrder 1 [mkItem 10])], [toProductRecord (mkProduct 10)]⟩

/-- The state the concrete `envC5` run ends in: one order record, one
backfilled product record, one page fetched. -/
def stC5 : PassState :=
  ⟨⟨[toOrderRecord (mkOrder 1 [mkItem 5])], [toProductRecord (mkProduct 5)]⟩, 1, 0, 0, 1⟩

section KeyedList

variable {α : Type} (key : α → Nat)

theorem lookupKey_cons (x : α) (l : List α) (k : Nat) :
    lookupKey key (x :: l) k = if key x = k then some x else lookupKey key l k := by
  by_cases h : key x = k
  · subst h
    simp [lookupKey, List.find?_cons]
  · simp [lookupKey, List.find?_cons, h]

theorem any_key_iff (l : List α) (k : Nat) :
    (l.any (fun x => key x == k)) = true ↔ k ∈ keysOf key l := by
  simp [List.any_eq_true, keysOf, List.mem_map]

theorem lookupKey_eq_none_iff (l : List α) (k : Nat) :
    lookupKey key l k = none ↔ k ∉ keysOf key l := by
  simp [lookupKey, List.find?_eq_none, keysOf, List.mem_map]

theorem lookupKey_isSome_iff (l : List α) (k : Nat) :
    (lookupKey key l k).isSome = true ↔ k ∈ keysOf key l := by
  constructor
  · intro hs
    rcases hx : lookupKey key l k with _ | x
    · rw [hx] at hs; simp at hs
    · have hx' : l.find? (fun y => key y == k) = some x := hx
      have hmem : x ∈ l := List.mem_of_find?_eq_some hx'
      have hpred := List.find?_some hx'
      have : key x = k := by simpa using hpred
      exact this ▸ (by simp [keysOf, List.mem_map]; exact ⟨x, hmem, rfl⟩)
  · intro hk
    rcases hx : lookupKey key l k with _ | x
    · exact absurd ((lookupKey_eq_none_iff key l k).1 hx) (by simp [hk])
    · simp

theorem any_key_eq_false (l : List α) (k : Nat) (hm : k ∉ keysOf key l) :
    (l.any fun x => key x == k) = false := by
  cases h : (l.any fun x => key x == k) with
  | false => rfl
  | true => exact absurd ((any_key_iff key l k).1 h) hm

theorem lookupKey_map_replace_self (l : List α) (r : α) (hm : key r ∈ keysOf key l) :
    lookupKey key (l.map (fun x => if key x == key r then r else x)) (key r) = some r := by
  induction l with
  | nil => simp [keysOf] at hm
  | cons x l ih =>
    by_cases hx : key x = key r
    · simp [lookupKey_cons, hx]
    · have hm' : key r ∈ keysOf key l := by
        rcases (by simpa [keysOf] using hm : key r = key x ∨ key r ∈ keysOf key l) with h | h
        · exact absurd h.symm hx
        · exact h
      rw [List.map_cons, if_neg (show ¬ (key x == key r) = true by simp [hx])]
      rw [lookupKey_cons, if_neg hx]
      exact ih hm'

theorem lookupKey_map_replace_other (l : List α) (r : α) (k : Nat) (hk : k ≠ key r) :
    lookupKey key (l.map (fun x => if key x == key r then r else x)) k = lookupKey key l k := by
  induction l with
  | nil => rfl
  | cons x l ih =>
    by_cases hx : key x = key r
    · rw [List.map_cons, if_pos (show (key x == key r) = true by simp [hx])]
      rw [lookupKey_cons, if_neg (Ne.symm hk)]
      rw [lookupKey_cons, if_neg (show ¬ key x = k from fun h => hk (h.symm.trans hx))]
      exact ih
    · rw [List.map_cons, if_neg (show ¬ (key x == key r) = true by simp [hx])]
      rw [lookupKey_cons, lookupKey_cons, ih]

theorem lookupKey_append_singleton_self (l : List α) (r : α)
    (hm : key r ∉ keysOf key l) :
    lookupKey key (l ++ [r]) (key r) = some r := by
  induction l with
  | nil => simp [lookupKey_cons]
  | cons x l ih =>
    have hx : key x ≠ key r := fun h => hm (by simp [keysOf, h])
    have hm' : key r ∉ keysOf key l := fun h => hm (by simp [keysOf] at h ⊢; right; exact h)
    rw [List.cons_append, lookupKey_cons, if_neg hx]
    exact ih hm'

theorem lookupKey_append_singleton_other (l : List α) (r : α) (k : Nat)
    (hk : k ≠ key r) :
    lookupKey key (l ++ [r]) k = lookupKey key l k := by
  induction l with
  | nil =>
    rw [List.nil_append, lookupKey_cons, if_neg (Ne.symm hk)]
  | cons x l ih =>
    rw [List.cons_append, lookupKey_cons, lookupKey_cons, ih]

theorem lookupKey_upsertKey_self (l : List α) (r : α) :
    lookupKey key (upsertKey key l r) (key r) = some r := by
  unfold upsertKey
  by_cases hm : key r ∈ keysOf key l
  · rw [if_pos ((any_key_iff key l (key r)).2 hm)]
    exact lookupKey_map_replace_self key l r hm
  · rw [any_key_eq_false key l (key r) hm]
    simp only [Bool.false_eq_true, if_false]
    exact lookupKey_append_singleton_self key l r hm

theorem lookupKey_upsertKey_other (l : List α) (r : α) (k : Nat) (hk : k ≠ key r) :
    lookupKey key (upsertKey key l r) k = lookupKey key l k := by
  unfold upsertKey
  by_cases hm : (l.any (fun x => key x == key r)) = true
  · rw [if_pos hm]; exact lookupKey_map_replace_other key l r k hk
  · rw [if_neg hm]; exact lookupKey_append_singleton_other key l r k hk

theorem keysOf_upsertKey_mem (l : List α) (r : α) (hm : key r ∈ keysOf key l) :
    keysOf key (upsertKey key l r) = keysOf key l := by
  unfold upsertKey
  rw [if_pos ((any_key_iff key l (key r)).2 hm)]
  simp only [keysOf, List.map_map]
  refine List.map_congr_left ?h
  intro x _
  by_cases hx : key x = key r
  · simp [hx]
  · simp [hx]

theorem keysOf_upsertKey_not_mem (l : List α) (r : α) (hm : key r ∉ keysOf key l) :
    keysOf key (upsertKey key l r) = keysOf key l ++ [key r] := by
  unfold upsertKey
  rw [any_key_eq_false key l (key r) hm]
  simp [keysOf]

theorem nodup_keysOf_upsertKey (l : List α) (r : α) (h : (keysOf key l).Nodup) :
    (keysOf key (upsertKey key l r)).Nodup := by
  by_cases hm : key r ∈ keysOf key l
  · rw [keysOf_upsertKey_mem key l r hm]; exact h
  · rw [keysOf_upsertKey_not_mem key l r hm]
    rw [List.nodup_append]
    exact ⟨h, List.nodup_singleton _,
      fun a ha hb => hm ((List.mem_singleton.1 hb) ▸ ha)⟩

theorem mem_keysOf_upsertKey (l : List α) (r : α) (k : Nat) :
    k ∈ keysOf key (upsertKey key l r) ↔ k ∈ keysOf key l ∨ k = key r := by
  by_cases hm : key r ∈ keysOf key l
  · rw [keysOf_upsertKey_mem key l r hm]
    constructor
    · exact fun h => Or.inl h
    · rintro (h | h)
      · exact h
      · exact h ▸ hm
  · rw [keysOf_upsertKey_not_mem key l r hm]
    simp

theorem isSome_lookupKey_upsertKey (l : List α) (r : α) (k : Nat)
    (h : (lookupKey key l k).isSome = true) :
    (lookupKey key (upsertKey key l r) k).isSome = true := by
  by_cases hk : k = key r
  · subst hk; rw [lookupKey_upsertKey_self]; rfl
  · rw [lookupKey_upsertKey_other key l r k hk]; exact h

theorem lookupKey_eraseKey_other (l : List α) (k k2 : Nat) (hk : k ≠ k2) :
    lookupKey key (eraseKey key l k2) k = lookupKey key l k := by
  induction l with
  | nil => rfl
  | cons x l ih =>
    have hcons : eraseKey key (x :: l) k2
        = bif key x == k2 then l else x :: eraseKey key l k2 := List.eraseP_cons x l
    by_cases hx : key x = k2
    · rw [hcons]
      simp only [hx, beq_self_eq_true, cond_true]
      rw [lookupKey_cons, if_neg (show ¬ key x = k from fun h => hk (h.symm.trans hx))]
    · have hxb : (key x == k2) = false := by simp [hx]
      rw [hcons]
      simp only [hxb, cond_false]
      rw [lookupKey_cons, lookupKey_cons, ih]

theorem eraseKey_sublist (l : List α) (k : Nat) : (eraseKey key l k).Sublist l :=
  List.eraseP_sublist l

theorem nodup_keysOf_of_sublist {l1 l2 : List α} (h : l1.Sublist l2)
    (h2 : (keysOf key l2).Nodup) : (keysOf key l1).Nodup :=
  List.Nodup.sublist (List.Sublist.map key h) h2

theorem keyedExt (l1 l2 : List α) (h1 : (keysOf key l1).Nodup)
    (hk : keysOf key l1 = keysOf key l2)
    (hl : ∀ k, lookupKey key l1 k = lookupKey key l2 k) : l1 = l2 := by
  induction l1 generalizing l2 with
  | nil =>
    cases l2 with
    | nil => rfl
    | cons y l2 => simp [keysOf] at hk
  | cons x l1 ih =>
    cases l2 with
    | nil => simp [keysOf] at hk
    | cons y l2 =>
      obtain ⟨hkey, hkeq⟩ : key x = key y ∧ keysOf key l1 = keysOf key l2 := by
        simpa [keysOf] using hk
      have hxy : x = y := by
        have h3 := hl (key x)
        rw [lookupKey_cons, if_pos rfl, lookupKey_cons, if_pos hkey.symm] at h3
        exact Option.some.inj h3
      subst hxy
      obtain ⟨hnotmem, hknd⟩ : key x ∉ keysOf key l1 ∧ (keysOf key l1).Nodup := by
        have : (key x :: keysOf key l1).Nodup := h1
        exact List.nodup_cons.1 this
      have hlt : ∀ k, lookupKey key l1 k = lookupKey key l2 k := by
        intro k
        by_cases hxk : key x = k
        · subst hxk
          rw [(lookupKey_eq_none_iff key l1 (key x)).2 hnotmem,
            (lookupKey_eq_none_iff key l2 (key x)).2 (hkeq ▸ hnotmem)]
        · have h3 := hl k
          rw [lookupKey_cons, if_neg hxk, lookupKey_cons, if_neg hxk] at h3
          exact h3
      rw [ih l2 hknd hkeq hlt]

end KeyedList

theorem backfillProduct_store (env : SyncEnv) (st : Store) (pid : Nat) :
    (backfillProduct env st pid).1 = { st with products := backfillP env st.products pid } := by
  unfold backfillProduct backfillP
  cases lookupProduct st.products pid with
  | some _ => rfl
  | none =>
    cases env.fetchProduct pid with
    | error e => rfl
    | ok p =>
      unfold syncProduct
      by_cases hw : env.productWriteFails p.id
      · simp [hw]
      · simp [hw]

theorem backfillFold_store (env : SyncEnv) (pids : List Nat) (st : Store) (n : Nat) :
    (pids.foldl
      (fun acc pid =>
        let r := backfillProduct env acc.1 pid
        (r.1, acc.2 + r.2)) (st, n)).1
      = { st with products := productsAfter env st.products pids } := by
  induction pids generalizing st n with
  | nil => simp [productsAfter]
  | cons pid pids ih =>
    simp only [List.foldl_cons]
    rw [show (productsAfter env st.products (pid :: pids))
        = productsAfter env (backfillP env st.products pid) pids from rfl]
    have h1 := backfillProduct_store env st pid
    rw [ih ((backfillProduct env st pid).1) (n + (backfillProduct env st pid).2), h1]

theorem syncProductsFromOrder_store (env : SyncEnv) (st : Store) (o : WooCommerceOrder) :
    (syncProductsFromOrder env st o).1
      = { st with products := productsAfter env st.products (orderPids o) } := by
  unfold syncProductsFromOrder
  exact backfillFold_store env (orderPids o) st 0

theorem orderStoreStep_eq (env : SyncEnv) (s : Store) (o : WooCommerceOrder) :
    orderStoreStep env s o =
      if env.orderWriteFails o.id then s
      else { s with orders := upsertOrder s.orders (toOrderRecord o),
                    products := productsAfter env s.products (orderPids o) } := by
  unfold orderStoreStep syncOrder
  by_cases hw : env.orderWriteFails o.id
  · simp [hw]
  · simp only [hw, Bool.false_eq_true, if_false]
    rw [syncProductsFromOrder_store]

theorem processOrder_store (env : SyncEnv) (st : PassState) (o : WooCommerceOrder) :
    (processOrder env st o).store = orderStoreStep env st.store o := by
  unfold processOrder orderStoreStep
  cases syncOrder env st.store o with
  | ok r => rfl
  | error e => rfl

theorem processOrder_fetchCalls (env : SyncEnv) (st : PassState) (o : WooCommerceOrder) :
    (processOrder env st o).fetchCalls = st.fetchCalls := by
  unfold processOrder
  cases syncOrder env st.store o with
  | ok r => rfl
  | error e => rfl

theorem syncOrder_isOk_iff (env : SyncEnv) (st : Store) (o : WooCommerceOrder) :
    (match syncOrder env st o with | .ok _ => true | .error _ => false)
      = !env.orderWriteFails o.id := by
  unfold syncOrder
  by_cases hw : env.orderWriteFails o.id
  · simp [hw]
  · simp [hw]

theorem processOrder_synced (env : SyncEnv) (st : PassState) (o : WooCommerceOrder) :
    (processOrder env st o).synced
      = st.synced + (if env.orderWriteFails o.id then 0 else 1) := by
  unfold processOrder syncOrder
  by_cases hw : env.orderWriteFails o.id
  · simp [hw]
  · simp [hw]

theorem processOrder_errors (env : SyncEnv) (st : PassState) (o : WooCommerceOrder) :
    (processOrder env st o).errors
      = st.errors + (if env.orderWriteFails o.id then 1 else 0) := by
  unfold processOrder syncOrder
  by_cases hw : env.orderWriteFails o.id
  · simp [hw]
  · simp [hw]

theorem processPage_store (env : SyncEnv) (st : PassState) (l : List WooCommerceOrder) :
    (processPage env st l).store = applyOrders env st.store l := by
  unfold processPage applyOrders
  induction l generalizing st with
  | nil => rfl
  | cons o l ih =>
    simp only [List.foldl_cons]
    rw [ih (processOrder env st o), processOrder_store]

theorem processPage_fetchCalls (env : SyncEnv) (st : PassState) (l : List WooCommerceOrder) :
    (processPage env st l).fetchCalls = st.fetchCalls := by
  unfold processPage
  induction l generalizing st with
  | nil => rfl
  | cons o l ih =>
    simp only [List.foldl_cons]
    rw [ih (processOrder env st o), processOrder_fetchCalls]

theorem processPage_synced (env : SyncEnv) (st : PassState) (l : List WooCommerceOrder) :
    (processPage env st l).synced
      = st.synced + (l.filter (fun o => !env.orderWriteFails o.id)).length := by
  unfold processPage
  induction l generalizing st with
  | nil => rfl
  | cons o l ih =>
    simp only [List.foldl_cons, List.filter_cons]
    by_cases hw : env.orderWriteFails o.id
    · simp only [hw, Bool.not_true]
      rw [ih (processOrder env st o), processOrder_synced]
      simp [hw]
    · simp only [hw, Bool.not_false]
      rw [ih (processOrder env st o), processOrder_synced]
      simp [hw]
      omega

theorem processPage_errors (env : SyncEnv) (st : PassState) (l : List WooCommerceOrder) :
    (processPage env st l).errors
      = st.errors + (l.filter (fun o => env.orderWriteFails o.id)).length := by
  unfold processPage
  induction l generalizing st with
  | nil => rfl
  | cons o l ih =>
    simp only [List.foldl_cons, List.filter_cons]
    by_cases hw : env.orderWriteFails o.id
    · simp only [hw]
      rw [ih (processOrder env st o), processOrder_errors]
      simp [hw]
      omega
    · simp only [hw]
      rw [ih (processOrder env st o), processOrder_errors]
      simp [hw]

theorem foldl_append_init {β : Type} (g : β → List Nat) (a : List Nat) (L : List β) :
    L.foldl (fun acc o => acc ++ g o) a = a ++ L.foldl (fun acc o => acc ++ g o) [] := by
  induction L generalizing a with
  | nil => simp
  | cons o L ih =>
    simp only [List.foldl_cons, List.nil_append]
    rw [ih (a ++ g o), ih (g o), List.append_assoc]

theorem backfillPids_cons (env : SyncEnv) (o : WooCommerceOrder) (L : List WooCommerceOrder) :
    backfillPids env (o :: L)
      = (if env.orderWriteFails o.id then [] else orderPids o) ++ backfillPids env L := by
  unfold backfillPids
  have hsh : ∀ (a : List Nat) (M : List WooCommerceOrder),
      M.foldl (fun acc o => if env.orderWriteFails o.id then acc else acc ++ orderPids o) a
        = a ++ M.foldl (fun acc o => if env.orderWriteFails o.id then acc else acc ++ orderPids o) [] := by
    intro a M
    have : ∀ acc o, (if env.orderWriteFails o.id then acc else acc ++ orderPids o)
        = acc ++ (if env.orderWriteFails o.id then [] else orderPids o) := by
      intro acc o
      by_cases hw : env.orderWriteFails o.id <;> simp [hw]
    calc M.foldl (fun acc o => if env.orderWriteFails o.id then acc else acc ++ orderPids o) a
        = M.foldl (fun acc o => acc ++ (if env.orderWriteFails o.id then [] else orderPids o)) a := by
          congr 1
          funext acc o
          exact this acc o
      _ = a ++ M.foldl (fun acc o => acc ++ (if env.orderWriteFails o.id then [] else orderPids o)) [] :=
          foldl_append_init _ a M
      _ = a ++ M.foldl (fun acc o => if env.orderWriteFails o.id then acc else acc ++ orderPids o) [] := by
          congr 2
          funext acc o
          exact (this acc o).symm
  simp only [List.foldl_cons, List.nil_append]
  by_cases hw : env.orderWriteFails o.id
  · simp only [hw, if_true, List.nil_append]
  · simp only [hw, if_false, List.nil_append]
    exact hsh (orderPids o) L

theorem productsAfter_append (env : SyncEnv) (ps : List ProductRecord) (a b : List Nat) :
    productsAfter env ps (a ++ b) = productsAfter env (productsAfter env ps a) b := by
  unfold productsAfter
  exact List.foldl_append _ _ a b

theorem applyOrders_orders (env : SyncEnv) (s : Store) (L : List WooCommerceOrder) :
    (applyOrders env s L).orders = ordersAfter env s.orders L := by
  unfold applyOrders ordersAfter
  induction L generalizing s with
  | nil => rfl
  | cons o L ih =>
    simp only [List.foldl_cons]
    rw [ih (orderStoreStep env s o), orderStoreStep_eq]
    by_cases hw : env.orderWriteFails o.id
    · simp [hw]
    · simp [hw]

theorem applyOrders_products (env : SyncEnv) (s : Store) (L : List WooCommerceOrder) :
    (applyOrders env s L).products = productsAfter env s.products (backfillPids env L) := by
  unfold applyOrders
  induction L generalizing s with
  | nil => rfl
  | cons o L ih =>
    simp only [List.foldl_cons]
    rw [ih (orderStoreStep env s o), backfillPids_cons, productsAfter_append,
      orderStoreStep_eq]
    by_cases hw : env.orderWriteFails o.id
    · simp [hw, productsAfter]
    · simp [hw]

theorem isSome_lookupOrder_upsertOrder (os : List OrderRecord) (r : OrderRecord) (k : Nat)
    (h : (lookupOrder os k).isSome = true) :
    (lookupOrder (upsertOrder os r) k).isSome = true := by
  show (lookupKey (fun o : OrderRecord => o.wooCommerceId)
    (upsertKey (fun o : OrderRecord => o.wooCommerceId) os r) k).isSome = true
  exact isSome_lookupKey_upsertKey (fun o : OrderRecord => o.wooCommerceId) os r k h

theorem lookupOrder_upsertOrder_self (os : List OrderRecord) (r : OrderRecord) :
    lookupOrder (upsertOrder os r) r.wooCommerceId = some r := by
  show lookupKey (fun o : OrderRecord => o.wooCommerceId)
    (upsertKey (fun o : OrderRecord => o.wooCommerceId) os r) r.wooCommerceId = some r
  exact lookupKey_upsertKey_self (fun o : OrderRecord => o.wooCommerceId) os r

theorem isSome_lookupOrder_ordersAfter (env : SyncEnv) (os : List OrderRecord)
    (L : List WooCommerceOrder) (k : Nat) (h : (lookupOrder os k).isSome = true) :
    (lookupOrder (ordersAfter env os L) k).isSome = true := by
  unfold ordersAfter
  induction L generalizing os with
  | nil => exact h
  | cons o L ih =>
    simp only [List.foldl_cons]
    by_cases hw : env.orderWriteFails o.id
    · simp only [hw, if_true]
      exact ih os h
    · simp only [hw, if_false]
      exact ih _ (isSome_lookupOrder_upsertOrder os (toOrderRecord o) k h)

theorem isSome_lookupOrder_ordersAfter_of_mem (env : SyncEnv) (os : List OrderRecord)
    (L : List WooCommerceOrder) (o : WooCommerceOrder) (hmem : o ∈ L)
    (hok : env.orderWriteFails o.id = false) :
    (lookupOrder (ordersAfter env os L) o.id).isSome = true := by
  induction L generalizing os with
  | nil => cases hmem
  | cons x L ih =>
    rcases List.mem_cons.1 hmem with h | h
    · subst h
      unfold ordersAfter
      simp only [List.foldl_cons, hok, Bool.false_eq_true, if_false]
      apply isSome_lookupOrder_ordersAfter env _ L o.id
      have h1 : lookupOrder (upsertOrder os (toOrderRecord o)) o.id
          = some (toOrderRecord o) :=
        lookupOrder_upsertOrder_self os (toOrderRecord o)
      rw [h1]
      rfl
    · unfold ordersAfter
      simp only [List.foldl_cons]
      by_cases hw : env.orderWriteFails x.id
      · simp only [hw, if_true]
        exact ih os h
      · simp only [hw, if_false]
        exact ih _ h

theorem syncLoop_zero (env : SyncEnv) (page : Nat) (st : PassState) :
    syncLoop env 0 page st = .fuelOut st := rfl

theorem syncLoop_succ_err (env : SyncEnv) (fuel page : Nat) (st : PassState)
    (e : String) (h : env.fetchOrdersPage page = .error e) :
    syncLoop env (fuel + 1) page st = .fetchFailed st := by
  unfold syncLoop
  rw [h]

theorem syncLoop_succ_empty (env : SyncEnv) (fuel page : Nat) (st : PassState)
    (orders : List WooCommerceOrder) (h : env.fetchOrdersPage page = .ok orders)
    (h0 : orders.length = 0) :
    syncLoop env (fuel + 1) page st = .ok { st with fetchCalls := st.fetchCalls + 1 } := by
  unfold syncLoop
  rw [h]
  simp only [h0, if_true]

theorem syncLoop_succ_short (env : SyncEnv) (fuel page : Nat) (st : PassState)
    (orders : List WooCommerceOrder) (h : env.fetchOrdersPage page = .ok orders)
    (h0 : ¬ orders.length = 0) (hs : orders.length < perPage) :
    syncLoop env (fuel + 1) page st
      = .ok (processPage env { st with fetchCalls := st.fetchCalls + 1 } orders) := by
  unfold syncLoop
  rw [h]
  simp only [h0, if_false, hs, if_true]

theorem syncLoop_succ_full (env : SyncEnv) (fuel page : Nat) (st : PassState)
    (orders : List WooCommerceOrder) (h : env.fetchOrdersPage page = .ok orders)
    (h0 : ¬ orders.length = 0) (hs : ¬ orders.length < perPage) :
    syncLoop env (fuel + 1) page st
      = syncLoop env fuel (page + 1)
          (processPage env { st with fetchCalls := st.fetchCalls + 1 } orders) := by
  conv_lhs => unfold syncLoop
  rw [h]
  simp only [h0, if_false, hs, if_false]

theorem syncLoop_tag_const (env : SyncEnv) (fuel : Nat) :
    ∀ (page : Nat) (st1 st2 : PassState),
    (syncLoop env fuel page st1).tag = (syncLoop env fuel page st2).tag := by
  induction fuel with
  | zero => intro page st1 st2; rfl
  | succ fuel ih =>
    intro page st1 st2
    unfold syncLoop
    cases env.fetchOrdersPage page with
    | error e => rfl
    | ok orders =>
      by_cases h0 : orders.length = 0
      · simp only [h0, if_true]
        rfl
      · simp only [h0, if_false]
        by_cases hs : orders.length < perPage
        · simp only [hs, if_true]
          rfl
        · simp only [hs, if_false]
          exact ih (page + 1) _ _

theorem syncLoop_store (env : SyncEnv) (fuel : Nat) :
    ∀ page : Nat, ∃ L, ∀ st : PassState,
    (syncLoop env fuel page st).state.store = applyOrders env st.store L := by
  induction fuel with
  | zero => intro page; exact ⟨[], fun st => rfl⟩
  | succ fuel ih =>
    intro page
    cases hf : env.fetchOrdersPage page with
    | error e =>
      refine ⟨[], fun st => ?_⟩
      unfold syncLoop
      rw [hf]
      rfl
    | ok orders =>
      by_cases h0 : orders.length = 0
      · refine ⟨[], fun st => ?_⟩
        unfold syncLoop
        rw [hf]
        simp only [h0, if_true]
        rfl
      · by_cases hs : orders.length < perPage
        · refine ⟨orders, fun st => ?_⟩
          unfold syncLoop
          rw [hf]
          simp only [h0, if_false, hs, if_true]
          show (processPage env _ orders).store = _
          rw [processPage_store]
        · obtain ⟨L, hL⟩ := ih (page + 1)
          refine ⟨orders ++ L, fun st => ?_⟩
          unfold syncLoop
          rw [hf]
          simp only [h0, if_false, hs, if_false]
          rw [hL (processPage env { st with fetchCalls := st.fetchCalls + 1 } orders),
            processPage_store]
          unfold applyOrders
          rw [List.foldl_append]

theorem syncLoop_short_ok (env : SyncEnv) (k : Nat) (fuel : Nat) :
    ∀ (page : Nat) (st : PassState), 1 ≤ page → page ≤ k →
    (∀ p, page ≤ p → p ≤ k → ∃ l, env.fetchOrdersPage p = Except.ok l) →
    (∀ l, env.fetchOrdersPage k = Except.ok l → l.length < perPage) →
    k - page < fuel →
    ∃ st', syncLoop env fuel page st = .ok st'
      ∧ st'.fetchCalls ≤ st.fetchCalls + (k - page) + 1 := by
  induction fuel with
  | zero =>
    intro page st _ _ _ _ hfuel
    omega
  | succ fuel ih =>
    intro page st h1 h2 hok hshort hfuel
    obtain ⟨l, hl⟩ := hok page le_rfl h2
    unfold syncLoop
    rw [hl]
    by_cases h0 : l.length = 0
    · simp only [h0, if_true]
      refine ⟨_, rfl, ?_⟩
      show st.fetchCalls + 1 ≤ st.fetchCalls + (k - page) + 1
      omega
    · simp only [h0, if_false]
      by_cases hs : l.length < perPage
      · simp only [hs, if_true]
        refine ⟨_, rfl, ?_⟩
        rw [processPage_fetchCalls]
        show st.fetchCalls + 1 ≤ st.fetchCalls + (k - page) + 1
        omega
      · simp only [hs, if_false]
        have hpk : page ≠ k := by
          intro he
          exact hs (hshort l (he ▸ hl))
        have hlt : page < k := lt_of_le_of_ne h2 hpk
        obtain ⟨st', hrun, hcalls⟩ :=
          ih (page + 1) (processPage env { st with fetchCalls := st.fetchCalls + 1 } l)
            (by omega) (by omega)
            (fun p hp1 hp2 => hok p (by omega) hp2) hshort (by omega)
        refine ⟨st', hrun, ?_⟩
        rw [processPage_fetchCalls] at hcalls
        have hc2 : st'.fetchCalls ≤ st.fetchCalls + 1 + (k - (page + 1)) + 1 := hcalls
        omega

theorem syncLoop_no_fetchFailed (env : SyncEnv)
    (h : ∀ p, exceptFailed (env.fetchOrdersPage p) = false) (fuel : Nat) :
    ∀ (page : Nat) (st : PassState),
    (syncLoop env fuel page st).isFetchFailed = false := by
  induction fuel with
  | zero => intro page st; rfl
  | succ fuel ih =>
    intro page st
    cases hfp : env.fetchOrdersPage page with
    | error e =>
      have hp := h page
      rw [hfp] at hp
      exact absurd hp (by simp [exceptFailed])
    | ok orders =>
      by_cases h0 : orders.length = 0
      · rw [syncLoop_succ_empty env fuel page st orders hfp h0]
        rfl
      · by_cases hs : orders.length < perPage
        · rw [syncLoop_succ_short env fuel page st orders hfp h0 hs]
          rfl
        · rw [syncLoop_succ_full env fuel page st orders hfp h0 hs]
          exact ih (page + 1) _

theorem syncLoop_fetchFailed_analysis (env : SyncEnv) (fuel : Nat) :
    ∀ (page : Nat) (st : PassState),
    (syncLoop env fuel page st).isFetchFailed = true →
    (∀ k, (lookupOrder st.store.orders k).isSome = true →
        (lookupOrder (syncLoop env fuel page st).state.store.orders k).isSome = true)
    ∧ ∃ N, page ≤ N ∧ exceptFailed (env.fetchOrdersPage N) = true ∧
        ∀ p lp o, page ≤ p → p < N → env.fetchOrdersPage p = Except.ok lp → o ∈ lp →
          env.orderWriteFails o.id = false →
          (lookupOrder (syncLoop env fuel page st).state.store.orders o.id).isSome = true := by
  induction fuel with
  | zero =>
    intro page st hf
    exact absurd hf (by simp [syncLoop_zero, PassOutcome.isFetchFailed])
  | succ fuel ih =>
    intro page st hf
    cases hfp : env.fetchOrdersPage page with
    | error e =>
      rw [syncLoop_succ_err env fuel page st e hfp]
      refine ⟨fun k hk => hk, page, le_rfl, by rw [hfp]; rfl, ?_⟩
      intro p lp o hp1 hp2 _ _ _
      omega
    | ok orders =>
      by_cases h0 : orders.length = 0
      · rw [syncLoop_succ_empty env fuel page st orders hfp h0] at hf
        exact absurd hf (by simp [PassOutcome.isFetchFailed])
      · by_cases hs : orders.length < perPage
        · rw [syncLoop_succ_short env fuel page st orders hfp h0 hs] at hf
          exact absurd hf (by simp [PassOutcome.isFetchFailed])
        · rw [syncLoop_succ_full env fuel page st orders hfp h0 hs] at hf ⊢
          obtain ⟨hmono, N, hN1, hN2, hN3⟩ := ih (page + 1)
            (processPage env { st with fetchCalls := st.fetchCalls + 1 } orders) hf
          have hstep : ∀ k, (lookupOrder st.store.orders k).isSome = true →
              (lookupOrder (processPage env
                { st with fetchCalls := st.fetchCalls + 1 } orders).store.orders k).isSome
                = true := by
            intro k hk
            rw [processPage_store, applyOrders_orders]
            exact isSome_lookupOrder_ordersAfter env _ orders k hk
          refine ⟨fun k hk => hmono k (hstep k hk), N, by omega, hN2, ?_⟩
          intro p lp o hp1 hp2 hplp hmem hwok
          by_cases hpe : p = page
          · subst hpe
            have hlp : lp = orders := by
              rw [hfp] at hplp
              exact (Except.ok.inj hplp).symm
            subst hlp
            apply hmono
            rw [processPage_store, applyOrders_orders]
            exact isSome_lookupOrder_ordersAfter_of_mem env _ lp o hmem hwok
          · exact hN3 p lp o (by omega) hp2 hplp hmem hwok

theorem phase1_fold_candidates (env : CleanupEnv) (l : List OrderRecord) :
    ∀ (os : List OrderRecord) (n : Nat) (c : List Nat),
    (l.foldl (phase1Step env) (os, n, c)).2.2
      = l.foldl (fun c o => o.line_items.foldl
          (fun c it => if c.contains it.product_id then c else c ++ [it.product_id]) c) c := by
  induction l with
  | nil => intro os n c; rfl
  | cons o l ih =>
    intro os n c
    simp only [List.foldl_cons]
    unfold phase1Step
    by_cases hw : env.deleteOrderFails o.wooCommerceId
    · simp only [hw, if_true]
      exact ih _ _ _
    · simp only [hw, if_false]
      exact ih _ _ _

theorem cleanupOldOrders_candidates (env : CleanupEnv) (threshold : Nat) (s : Store) :
    ((s.orders.filter (fun o => o.last_modified < threshold)).foldl
        (phase1Step env) (s.orders, 0, [])).2.2
      = retentionCandidates threshold s.orders :=
  phase1_fold_candidates env _ s.orders 0 []

theorem isSome_lookupProduct_erase_ne (ps : List ProductRecord) (pid pid2 : Nat)
    (hne : pid ≠ pid2) (h : (lookupProduct ps pid).isSome = true) :
    (lookupProduct (deleteProduct ps pid2) pid).isSome = true := by
  show (lookupKey (fun p : ProductRecord => p.wooCommerceId)
    (eraseKey (fun p : ProductRecord => p.wooCommerceId) ps pid2) pid).isSome = true
  rw [lookupKey_eraseKey_other (fun p : ProductRecord => p.wooCommerceId) ps pid pid2 hne]
  exact h

theorem lookupProduct_erase_ne (ps : List ProductRecord) (pid pid2 : Nat)
    (hne : pid ≠ pid2) :
    lookupProduct (deleteProduct ps pid2) pid = lookupProduct ps pid := by
  show lookupKey (fun p : ProductRecord => p.wooCommerceId)
    (eraseKey (fun p : ProductRecord => p.wooCommerceId) ps pid2) pid = _
  rw [lookupKey_eraseKey_other (fun p : ProductRecord => p.wooCommerceId) ps pid pid2 hne]
  rfl

theorem cleanupUnused_keeps_referenced (env : CleanupEnv) (os : List OrderRecord)
    (pids : List Nat) :
    ∀ (ps : List ProductRecord) (n : Nat) (pid : Nat),
    (lookupProduct ps pid).isSome = true →
    (∃ o ∈ os, referencesProduct o pid = true) →
    (lookupProduct
      (pids.foldl
        (fun acc pid2 =>
          match os.find? (fun o => referencesProduct o pid2) with
          | some _ => acc
          | none =>
            if env.deleteProductFails pid2 then acc
            else (deleteProduct acc.1 pid2, acc.2 + 1)) (ps, n)).1 pid).isSome = true := by
  induction pids with
  | nil => intro ps n pid hps _; exact hps
  | cons pid2 pids ih =>
    intro ps n pid hps href
    simp only [List.foldl_cons]
    cases hfind : os.find? (fun o => referencesProduct o pid2) with
    | some o => exact ih ps n pid hps href
    | none =>
      by_cases hdf : env.deleteProductFails pid2
      · simp only [hdf, if_true]
        exact ih ps n pid hps href
      · simp only [hdf, Bool.false_eq_true, if_false]
        have hne : pid ≠ pid2 := by
          intro he
          subst he
          obtain ⟨o, ho, hro⟩ := href
          have := List.find?_eq_none.1 hfind o ho
          simp [hro] at this
        exact ih _ _ pid (isSome_lookupProduct_erase_ne ps pid pid2 hne hps) href

theorem cleanupUnusedProducts_keeps_referenced (env : CleanupEnv) (os : List OrderRecord)
    (ps : List ProductRecord) (pids : List Nat) (pid : Nat)
    (hps : (lookupProduct ps pid).isSome = true)
    (href : ∃ o ∈ os, referencesProduct o pid = true) :
    (lookupProduct (cleanupUnusedProducts env os ps pids).1 pid).isSome = true :=
  cleanupUnused_keeps_referenced env os pids ps 0 pid hps href

theorem cleanupUnused_lookup_of_not_mem (env : CleanupEnv) (os : List OrderRecord)
    (pids : List Nat) :
    ∀ (ps : List ProductRecord) (n : Nat) (pid : Nat), pid ∉ pids →
    lookupProduct
      (pids.foldl
        (fun acc pid2 =>
          match os.find? (fun o => referencesProduct o pid2) with
          | some _ => acc
          | none =>
            if env.deleteProductFails pid2 then acc
            else (deleteProduct acc.1 pid2, acc.2 + 1)) (ps, n)).1 pid
      = lookupProduct ps pid := by
  induction pids with
  | nil => intro ps n pid _; rfl
  | cons pid2 pids ih =>
    intro ps n pid hmem
    have hne : pid ≠ pid2 := fun he => hmem (he ▸ List.mem_cons_self pid2 pids)
    have hmem' : pid ∉ pids := fun h => hmem (List.mem_cons_of_mem pid2 h)
    simp only [List.foldl_cons]
    cases hfind : os.find? (fun o => referencesProduct o pid2) with
    | some o => exact ih ps n pid hmem'
    | none =>
      by_cases hdf : env.deleteProductFails pid2
      · simp only [hdf, if_true]
        exact ih ps n pid hmem'
      · simp only [hdf, Bool.false_eq_true, if_false]
        rw [ih _ _ pid hmem', lookupProduct_erase_ne ps pid pid2 hne]

theorem cleanupUnusedProducts_lookup_of_not_mem (env : CleanupEnv) (os : List OrderRecord)
    (ps : List ProductRecord) (pids : List Nat) (pid : Nat) (h : pid ∉ pids) :
    lookupProduct (cleanupUnusedProducts env os ps pids).1 pid = lookupProduct ps pid :=
  cleanupUnused_lookup_of_not_mem env os pids ps 0 pid h

theorem cleanupUnused_sublist (env : CleanupEnv) (os : List OrderRecord)
    (pids : List Nat) :
    ∀ (ps : List ProductRecord) (n : Nat),
    ((pids.foldl
        (fun acc pid2 =>
          match os.find? (fun o => referencesProduct o pid2) with
          | some _ => acc
          | none =>
            if env.deleteProductFails pid2 then acc
            else (deleteProduct acc.1 pid2, acc.2 + 1)) (ps, n)).1).Sublist ps := by
  induction pids with
  | nil => intro ps n; exact List.Sublist.refl ps
  | cons pid2 pids ih =>
    intro ps n
    simp only [List.foldl_cons]
    cases hfind : os.find? (fun o => referencesProduct o pid2) with
    | some o => exact ih ps n
    | none =>
      by_cases hdf : env.deleteProductFails pid2
      · simp only [hdf, if_true]
        exact ih ps n
      · simp only [hdf, Bool.false_eq_true, if_false]
        exact List.Sublist.trans (ih _ _) (eraseKey_sublist _ ps pid2)

theorem cleanupUnusedProducts_sublist (env : CleanupEnv) (os : List OrderRecord)
    (ps : List ProductRecord) (pids : List Nat) :
    ((cleanupUnusedProducts env os ps pids).1).Sublist ps :=
  cleanupUnused_sublist env os pids ps 0

theorem nodup_orderKeys_upsertOrder (os : List OrderRecord) (r : OrderRecord)
    (h : (orderKeys os).Nodup) : (orderKeys (upsertOrder os r)).Nodup := by
  show (keysOf (fun o : OrderRecord => o.wooCommerceId)
    (upsertKey (fun o : OrderRecord => o.wooCommerceId) os r)).Nodup
  exact nodup_keysOf_upsertKey (fun o : OrderRecord => o.wooCommerceId) os r h

theorem nodup_productKeys_upsertProduct (ps : List ProductRecord) (r : ProductRecord)
    (h : (productKeys ps).Nodup) : (productKeys (upsertProduct ps r)).Nodup := by
  show (keysOf (fun p : ProductRecord => p.wooCommerceId)
    (upsertKey (fun p : ProductRecord => p.wooCommerceId) ps r)).Nodup
  exact nodup_keysOf_upsertKey (fun p : ProductRecord => p.wooCommerceId) ps r h

theorem nodup_productKeys_backfillP (env : SyncEnv) (ps : List ProductRecord) (pid : Nat)
    (h : (productKeys ps).Nodup) : (productKeys (backfillP env ps pid)).Nodup := by
  unfold backfillP
  cases lookupProduct ps pid with
  | some _ => exact h
  | none =>
    cases env.fetchProduct pid with
    | error e => exact h
    | ok p =>
      by_cases hw : env.productWriteFails p.id
      · simp only [hw, if_true]
        exact h
      · simp only [hw, Bool.false_eq_true, if_false]
        exact nodup_productKeys_upsertProduct ps (toProductRecord p) h

theorem nodup_productKeys_productsAfter (env : SyncEnv) (pids : List Nat) :
    ∀ ps : List ProductRecord, (productKeys ps).Nodup →
    (productKeys (productsAfter env ps pids)).Nodup := by
  induction pids with
  | nil => intro ps h; exact h
  | cons pid pids ih =>
    intro ps h
    unfold productsAfter
    simp only [List.foldl_cons]
    exact ih (backfillP env ps pid) (nodup_productKeys_backfillP env ps pid h)

theorem nodup_orderKeys_ordersAfter (env : SyncEnv) (L : List WooCommerceOrder) :
    ∀ os : List OrderRecord, (orderKeys os).Nodup →
    (orderKeys (ordersAfter env os L)).Nodup := by
  induction L with
  | nil => intro os h; exact h
  | cons o L ih =>
    intro os h
    unfold ordersAfter
    simp only [List.foldl_cons]
    by_cases hw : env.orderWriteFails o.id
    · simp only [hw, if_true]
      exact ih os h
    · simp only [hw, Bool.false_eq_true, if_false]
      exact ih _ (nodup_orderKeys_upsertOrder os (toOrderRecord o) h)

theorem nodup_applyOrders (env : SyncEnv) (s : Store) (L : List WooCommerceOrder)
    (ho : (orderKeys s.orders).Nodup) (hp : (productKeys s.products).Nodup) :
    (orderKeys (applyOrders env s L).orders).Nodup
      ∧ (productKeys (applyOrders env s L).products).Nodup := by
  rw [applyOrders_orders, applyOrders_products]
  exact ⟨nodup_orderKeys_ordersAfter env L s.orders ho,
    nodup_productKeys_productsAfter env (backfillPids env L) s.products hp⟩

theorem nodup_syncLoop (env : SyncEnv) (fuel page : Nat) (st : PassState)
    (ho : (orderKeys st.store.orders).Nodup) (hp : (productKeys st.store.products).Nodup) :
    (orderKeys (syncLoop env fuel page st).state.store.orders).Nodup
      ∧ (productKeys (syncLoop env fuel page st).state.store.products).Nodup := by
  obtain ⟨L, hL⟩ := syncLoop_store env fuel page
  rw [hL st]
  exact nodup_applyOrders env st.store L ho hp

theorem nodup_orderKeys_deleteOrder (os : List OrderRecord) (k : Nat)
    (h : (orderKeys os).Nodup) : (orderKeys (deleteOrder os k)).Nodup :=
  nodup_keysOf_of_sublist (fun o : OrderRecord => o.wooCommerceId)
    (eraseKey_sublist (fun o : OrderRecord => o.wooCommerceId) os k) h

theorem nodup_phase1_orders (env : CleanupEnv) (l : List OrderRecord) :
    ∀ (os : List OrderRecord) (n : Nat) (c : List Nat), (orderKeys os).Nodup →
    (orderKeys (l.foldl (phase1Step env) (os, n, c)).1).Nodup := by
  induction l with
  | nil => intro os n c h; exact h
  | cons o l ih =>
    intro os n c h
    simp only [List.foldl_cons]
    unfold phase1Step
    by_cases hw : env.deleteOrderFails o.wooCommerceId
    · simp only [hw, if_true]
      exact ih os n _ h
    · simp only [hw, Bool.false_eq_true, if_false]
      exact ih _ _ _ (nodup_orderKeys_deleteOrder os o.wooCommerceId h)

theorem nodup_cleanupOldOrders (env : CleanupEnv) (threshold : Nat) (s : Store)
    (ho : (orderKeys s.orders).Nodup) (hp : (productKeys s.products).Nodup) :
    (orderKeys (cleanupOldOrders env threshold s).1.orders).Nodup
      ∧ (productKeys (cleanupOldOrders env threshold s).1.products).Nodup := by
  unfold cleanupOldOrders
  refine ⟨nodup_phase1_orders env _ s.orders 0 [] ho, ?_⟩
  exact nodup_keysOf_of_sublist (fun p : ProductRecord => p.wooCommerceId)
    (cleanupUnusedProducts_sublist env _ s.products _) hp

theorem nodup_applyPass (s : Store) (p : StorePass)
    (ho : (orderKeys s.orders).Nodup) (hp : (productKeys s.products).Nodup) :
    (orderKeys (applyPass s p).orders).Nodup
      ∧ (productKeys (applyPass s p).products).Nodup := by
  cases p with
  | sync env fuel => exact nodup_syncLoop env fuel 1 (initState s) ho hp
  | retention env threshold => exact nodup_cleanupOldOrders env threshold s ho hp

theorem nodup_foldPasses (passes : List StorePass) :
    ∀ s : Store, (orderKeys s.orders).Nodup → (productKeys s.products).Nodup →
    (orderKeys (passes.foldl applyPass s).orders).Nodup
      ∧ (productKeys (passes.foldl applyPass s).products).Nodup := by
  induction passes with
  | nil => intro s ho hp; exact ⟨ho, hp⟩
  | cons p passes ih =>
    intro s ho hp
    simp only [List.foldl_cons]
    obtain ⟨ho', hp'⟩ := nodup_applyPass s p ho hp
    exact ih (applyPass s p) ho' hp'

theorem optOr_assoc {A : Type} (a b c : Option A) :
    optOr (optOr a b) c = optOr a (optOr b c) := by
  cases a <;> rfl

theorem optOr_self_absorb {A : Type} (a b : Option A) :
    optOr a (optOr a b) = optOr a b := by
  cases a <;> rfl

theorem lookupOrder_upsertOrder_other (os : List OrderRecord) (r : OrderRecord) (k : Nat)
    (h : k ≠ r.wooCommerceId) :
    lookupOrder (upsertOrder os r) k = lookupOrder os k := by
  show lookupKey (fun o : OrderRecord => o.wooCommerceId)
    (upsertKey (fun o : OrderRecord => o.wooCommerceId) os r) k = _
  rw [lookupKey_upsertKey_other (fun o : OrderRecord => o.wooCommerceId) os r k h]
  rfl

theorem lookupOrder_ordersAfter (env : SyncEnv) (L : List WooCommerceOrder) :
    ∀ (os : List OrderRecord) (k : Nat),
    lookupOrder (ordersAfter env os L) k = optOr (lastUpserted env k L) (lookupOrder os k) := by
  induction L with
  | nil => intro os k; rfl
  | cons o L ih =>
    intro os k
    have hstep : lookupOrder
        (if env.orderWriteFails o.id then os else upsertOrder os (toOrderRecord o)) k
        = optOr (if env.orderWriteFails o.id then none
            else if o.id = k then some (toOrderRecord o) else none) (lookupOrder os k) := by
      by_cases hw : env.orderWriteFails o.id
      · simp only [hw, if_true]
        rfl
      · simp only [hw, Bool.false_eq_true, if_false]
        by_cases hk : o.id = k
        · subst hk
          simp only [if_pos rfl]
          exact lookupOrder_upsertOrder_self os (toOrderRecord o)
        · simp only [hk, if_false]
          rw [lookupOrder_upsertOrder_other os (toOrderRecord o) k
            (fun he => hk (he.symm))]
          rfl
    show lookupOrder (ordersAfter env
      (if env.orderWriteFails o.id then os else upsertOrder os (toOrderRecord o)) L) k = _
    rw [ih _ k, hstep, lastUpserted, optOr_assoc]

theorem lookupOrder_isSome_iff (os : List OrderRecord) (k : Nat) :
    (lookupOrder os k).isSome = true ↔ k ∈ orderKeys os :=
  lookupKey_isSome_iff (fun o : OrderRecord => o.wooCommerceId) os k

theorem orderKeys_upsertOrder_mem (os : List OrderRecord) (r : OrderRecord)
    (h : r.wooCommerceId ∈ orderKeys os) :
    orderKeys (upsertOrder os r) = orderKeys os :=
  keysOf_upsertKey_mem (fun o : OrderRecord => o.wooCommerceId) os r h

theorem orderKeys_ordersAfter_of_mem (env : SyncEnv) (L : List WooCommerceOrder) :
    ∀ os : List OrderRecord,
    (∀ o ∈ L, env.orderWriteFails o.id = false → o.id ∈ orderKeys os) →
    orderKeys (ordersAfter env os L) = orderKeys os := by
  induction L with
  | nil => intro os _; rfl
  | cons o L ih =>
    intro os hmem
    show orderKeys (ordersAfter env
      (if env.orderWriteFails o.id then os else upsertOrder os (toOrderRecord o)) L) = _
    by_cases hw : env.orderWriteFails o.id
    · simp only [hw, if_true]
      exact ih os (fun o' h' hw' => hmem o' (List.mem_cons_of_mem o h') hw')
    · simp only [hw, Bool.false_eq_true, if_false]
      have hkeys : orderKeys (upsertOrder os (toOrderRecord o)) = orderKeys os :=
        orderKeys_upsertOrder_mem os (toOrderRecord o)
          (hmem o (List.mem_cons_self o L) (by simp [hw]))
      rw [ih (upsertOrder os (toOrderRecord o))
        (fun o' h' hw' => hkeys ▸ hmem o' (List.mem_cons_of_mem o h') hw'), hkeys]

theorem orderExt (l1 l2 : List OrderRecord) (h1 : (orderKeys l1).Nodup)
    (hk : orderKeys l1 = orderKeys l2)
    (hl : ∀ k, lookupOrder l1 k = lookupOrder l2 k) : l1 = l2 :=
  keyedExt (fun o : OrderRecord => o.wooCommerceId) l1 l2 h1 hk hl

theorem ordersAfter_idem (env : SyncEnv) (L : List WooCommerceOrder)
    (os : List OrderRecord) (hnd : (orderKeys os).Nodup) :
    ordersAfter env (ordersAfter env os L) L = ordersAfter env os L := by
  have hnd1 : (orderKeys (ordersAfter env os L)).Nodup :=
    nodup_orderKeys_ordersAfter env L os hnd
  apply orderExt _ _ (nodup_orderKeys_ordersAfter env L _ hnd1)
  · apply orderKeys_ordersAfter_of_mem
    intro o hmem hw
    rw [← lookupOrder_isSome_iff]
    exact isSome_lookupOrder_ordersAfter_of_mem env os L o hmem hw
  · intro k
    rw [lookupOrder_ordersAfter, lookupOrder_ordersAfter, optOr_self_absorb]

theorem isSome_lookupProduct_upsertProduct (ps : List ProductRecord) (r : ProductRecord)
    (k : Nat) (h : (lookupProduct ps k).isSome = true) :
    (lookupProduct (upsertProduct ps r) k).isSome = true := by
  show (lookupKey (fun p : ProductRecord => p.wooCommerceId)
    (upsertKey (fun p : ProductRecord => p.wooCommerceId) ps r) k).isSome = true
  exact isSome_lookupKey_upsertKey (fun p : ProductRecord => p.wooCommerceId) ps r k h

theorem lookupProduct_upsertProduct_self (ps : List ProductRecord) (r : ProductRecord) :
    lookupProduct (upsertProduct ps r) r.wooCommerceId = some r := by
  show lookupKey (fun p : ProductRecord => p.wooCommerceId)
    (upsertKey (fun p : ProductRecord => p.wooCommerceId) ps r) r.wooCommerceId = some r
  exact lookupKey_upsertKey_self (fun p : ProductRecord => p.wooCommerceId) ps r

theorem isSome_lookupProduct_backfillP (env : SyncEnv) (ps : List ProductRecord)
    (pid k : Nat) (h : (lookupProduct ps k).isSome = true) :
    (lookupProduct (backfillP env ps pid) k).isSome = true := by
  unfold backfillP
  cases lookupProduct ps pid with
  | some _ => exact h
  | none =>
    cases env.fetchProduct pid with
    | error e => exact h
    | ok p =>
      by_cases hw : env.productWriteFails p.id
      · simp only [hw, if_true]
        exact h
      · simp only [hw, Bool.false_eq_true, if_false]
        exact isSome_lookupProduct_upsertProduct ps (toProductRecord p) k h

theorem isSome_lookupProduct_productsAfter (env : SyncEnv) (pids : List Nat) :
    ∀ (ps : List ProductRecord) (k : Nat), (lookupProduct ps k).isSome = true →
    (lookupProduct (productsAfter env ps pids) k).isSome = true := by
  induction pids with
  | nil => intro ps k h; exact h
  | cons pid pids ih =>
    intro ps k h
    show (lookupProduct (productsAfter env (backfillP env ps pid) pids) k).isSome = true
    exact ih _ k (isSome_lookupProduct_backfillP env ps pid k h)

theorem productsAfter_attempt_outcome (env : SyncEnv)
    (hWF : ∀ pid p, env.fetchProduct pid = .ok p → p.id = pid) (pids : List Nat) :
    ∀ (ps : List ProductRecord) (pid : Nat), pid ∈ pids →
    (lookupProduct (productsAfter env ps pids) pid).isSome = true ∨ backfillStuck env pid := by
  induction pids with
  | nil => intro ps pid h; cases h
  | cons pid2 pids ih =>
    intro ps pid hmem
    rcases List.mem_cons.1 hmem with h | h
    · subst h
      show (lookupProduct (productsAfter env (backfillP env ps pid) pids) pid).isSome = true
        ∨ backfillStuck env pid
      cases hl : lookupProduct ps pid with
      | some r =>
        left
        apply isSome_lookupProduct_productsAfter
        apply isSome_lookupProduct_backfillP
        rw [hl]
        rfl
      | none =>
        cases hfp : env.fetchProduct pid with
        | error e =>
          right
          unfold backfillStuck
          rw [hfp]
          trivial
        | ok p =>
          by_cases hw : env.productWriteFails p.id
          · right
            unfold backfillStuck
            rw [hfp]
            exact hw
          · left
            apply isSome_lookupProduct_productsAfter
            unfold backfillP
            rw [hl, hfp]
            simp only [hw, Bool.false_eq_true, if_false]
            have hid : (toProductRecord p).wooCommerceId = pid := hWF pid p hfp
            rw [← hid, lookupProduct_upsertProduct_self]
            rfl
    · exact ih (backfillP env ps pid2) pid h

theorem backfillP_noop (env : SyncEnv) (ps : List ProductRecord) (pid : Nat)
    (h : (lookupProduct ps pid).isSome = true ∨ backfillStuck env pid) :
    backfillP env ps pid = ps := by
  unfold backfillP
  cases hl : lookupProduct ps pid with
  | some r => rfl
  | none =>
    rcases h with h | h
    · rw [hl] at h
      exact absurd h (by simp)
    · unfold backfillStuck at h
      cases hfp : env.fetchProduct pid with
      | error e => rfl
      | ok p =>
        rw [hfp] at h
        simp only [h, if_true]

theorem productsAfter_noop (env : SyncEnv) (pids : List Nat) :
    ∀ ps : List ProductRecord,
    (∀ pid ∈ pids, (lookupProduct ps pid).isSome = true ∨ backfillStuck env pid) →
    productsAfter env ps pids = ps := by
  induction pids with
  | nil => intro ps _; rfl
  | cons pid pids ih =>
    intro ps h
    show productsAfter env (backfillP env ps pid) pids = ps
    rw [backfillP_noop env ps pid (h pid (List.mem_cons_self pid pids))]
    exact ih ps (fun pid2 h2 => h pid2 (List.mem_cons_of_mem pid h2))

theorem productsAfter_idem (env : SyncEnv)
    (hWF : ∀ pid p, env.fetchProduct pid = .ok p → p.id = pid)
    (pids : List Nat) (ps : List ProductRecord) :
    productsAfter env (productsAfter env ps pids) pids = productsAfter env ps pids := by
  apply productsAfter_noop
  intro pid hmem
  exact productsAfter_attempt_outcome env hWF pids ps pid hmem

theorem Store.ext' (a b : Store) (h1 : a.orders = b.orders) (h2 : a.products = b.products) :
    a = b := by
  cases a
  cases b
  simp_all

theorem applyOrders_idem (env : SyncEnv) (s : Store) (L : List WooCommerceOrder)
    (hnd : (orderKeys s.orders).Nodup)
    (hWF : ∀ pid p, env.fetchProduct pid = .ok p → p.id = pid) :
    applyOrders env (applyOrders env s L) L = applyOrders env s L := by
  apply Store.ext'
  · rw [applyOrders_orders, applyOrders_orders]
    exact ordersAfter_idem env L s.orders hnd
  · rw [applyOrders_products, applyOrders_products]
    exact productsAfter_idem env hWF (backfillPids env L) s.products

theorem countKey_le_one_of_nodup {α : Type} (key : α → Nat) (l : List α) (k : Nat)
    (h : (keysOf key l).Nodup) :
    (l.filter (fun x => key x == k)).length ≤ 1 := by
  induction l with
  | nil => simp
  | cons x l ih =>
    obtain ⟨hnot, hnd⟩ : key x ∉ keysOf key l ∧ (keysOf key l).Nodup := by
      have : (key x :: keysOf key l).Nodup := h
      exact List.nodup_cons.1 this
    rw [List.filter_cons]
    by_cases hx : key x = k
    · simp only [hx, beq_self_eq_true, if_true]
      have hz : (l.filter (fun y => key y == k)).length = 0 := by
        rw [List.length_eq_zero]
        rw [List.filter_eq_nil_iff]
        intro a ha
        intro hak
        apply hnot
        rw [show key x = k from hx]
        have : key a = k := by simpa using hak
        rw [← this]
        exact List.mem_map_of_mem key ha
      simp [hz]
    · have hxb : (key x == k) = false := by simp [hx]
      simp only [hxb, Bool.false_eq_true, if_false]
      exact ih hnd

theorem cleanupOldOrders_orders_eq (env : CleanupEnv) (threshold : Nat) (s : Store) :
    (cleanupOldOrders env threshold s).1.orders
      = ((s.orders.filter (fun o => o.last_modified < threshold)).foldl
          (phase1Step env) (s.orders, 0, [])).1 := rfl

theorem cleanupOldOrders_products_eq (env : CleanupEnv) (threshold : Nat) (s : Store) :
    (cleanupOldOrders env threshold s).1.products
      = (cleanupUnusedProducts env
          ((s.orders.filter (fun o => o.last_modified < threshold)).foldl
            (phase1Step env) (s.orders, 0, [])).1
          s.products
          ((s.orders.filter (fun o => o.last_modified < threshold)).foldl
            (phase1Step env) (s.orders, 0, [])).2.2).1 := rfl

/-- C9: a scheduled cycle whose connectivity test returns false skips the sync
pass entirely: the store is untouched and no outcome (hence no sync error) is
recorded; the manual triggers bypass gate and cadence, running the
Reconciler's passes directly and returning their results. -/
theorem claim_scheduler_gate_and_manual_bypass (env : SyncEnv) (cenv : CleanupEnv)
    (fuel threshold : Nat) (s : Store) :
    runDailySync env false fuel s = (s, none)
    ∧ triggerManualSync env fuel s = syncOrders env fuel s
    ∧ triggerManualCleanup cenv threshold s = cleanupOldOrders cenv threshold s :=
  ⟨rfl, rfl, rfl⟩

/-- C6: a backfill attempt skips the remote entirely when a local catalog
record exists (the result does not depend on the environment at all), fetches
and upserts the full record when absent and the fetch succeeds, and creates
no record (not even a stub) when the fetch or the local write fails. -/
theorem claim_backfill_frame (env : SyncEnv) (st : Store) (pid : Nat) :
    ((lookupProduct st.products pid).isSome = true →
      ∀ env2 : SyncEnv, backfillProduct env2 st pid = (st, 0))
    ∧ (lookupProduct st.products pid = none →
      ∀ p, env.fetchProduct pid = Except.ok p → env.productWriteFails p.id = false →
      backfillProduct env st pid
        = ({ st with products := upsertProduct st.products (toProductRecord p) }, 0))
    ∧ (lookupProduct st.products pid = none →
      ∀ e, env.fetchProduct pid = Except.error e → backfillProduct env st pid = (st, 1))
    ∧ (lookupProduct st.products pid = none →
      ∀ p, env.fetchProduct pid = Except.ok p → env.productWriteFails p.id = true →
      backfillProduct env st pid = (st, 1)) := by
  refine ⟨?_, ?_, ?_, ?_⟩
  · intro h env2
    unfold backfillProduct
    cases hl : lookupProduct st.products pid with
    | some r => rfl
    | none => rw [hl] at h; exact absurd h (by simp)
  · intro h p hfp hw
    unfold backfillProduct
    rw [h, hfp]
    unfold syncProduct
    simp only [hw, Bool.false_eq_true, if_false]
  · intro h e hfp
    unfold backfillProduct
    rw [h, hfp]
  · intro h p hfp hw
    unfold backfillProduct
    rw [h, hfp]
    unfold syncProduct
    simp only [hw, if_true]

/-- Witness for C6: with the product-10 record present the attempt is a no-op
even under an environment whose every fetch fails, and with no record present
a failing fetch leaves the store without any stub. -/
theorem claim_backfill_frame_witness :
    backfillProduct envC4 ⟨[], [toProductRecord (mkProduct 10)]⟩ 10
      = (⟨[], [toProductRecord (mkProduct 10)]⟩, 0)
    ∧ backfillProduct envC4 emptyStore 7 = (emptyStore, 1) :=
  ⟨(claim_backfill_frame envC4 ⟨[], [toProductRecord (mkProduct 10)]⟩ 10).1 (by decide) envC4,
   (claim_backfill_frame envC4 emptyStore 7).2.2.1 (by decide) ("remote down") rfl⟩

/-- Counterexample to C4 as stated: in a run where the transaction upsert
succeeds but the backfill fetch for its referenced catalog identifier fails
(the failure is logged: `logged = 1`), the pass returns `errors = 0` — the
backfill failure is not counted in the returned errors tally, contradicting
the claim that it is. -/
theorem claim_backfill_error_tally_counterexample :
    (syncOrders envC4 2 emptyStore).isOkOutcome = true
    ∧ (syncOrders envC4 2 emptyStore).state.synced = 1
    ∧ (syncOrders envC4 2 emptyStore).state.logged = 1
    ∧ (syncOrders envC4 2 emptyStore).state.errors = 0
    ∧ ¬ (syncOrders envC4 2 emptyStore).state.errors = 1 := by
  refine ⟨?_, ?_, ?_, ?_, ?_⟩ <;> decide

/-- C4 (amended): a backfill fetch or upsert failure for an identifier
referenced by a processed transaction is caught and logged (it increments the
logged count), but it is not added to the pass's errors tally, and the
transaction's own already-completed upsert is unaffected: the transaction
still counts in `synced` and its record is in the store. -/
theorem claim_backfill_failure_logged_not_counted (env : SyncEnv) (st : PassState)
    (o : WooCommerceOrder) (hw : env.orderWriteFails o.id = false) :
    (processOrder env st o).synced = st.synced + 1
    ∧ (processOrder env st o).errors = st.errors
    ∧ (processOrder env st o).logged
        = st.logged + (syncProductsFromOrder env
            { st.store with orders := upsertOrder st.store.orders (toOrderRecord o) } o).2
    ∧ (lookupOrder (processOrder env st o).store.orders o.id).isSome = true := by
  unfold processOrder syncOrder
  simp only [hw, Bool.false_eq_true, if_false]
  refine ⟨by trivial, by trivial, by trivial, ?_⟩
  show (lookupOrder (syncProductsFromOrder env
    { st.store with orders := upsertOrder st.store.orders (toOrderRecord o) } o).1.orders
    o.id).isSome = true
  rw [syncProductsFromOrder_store]
  show (lookupOrder (upsertOrder st.store.orders (toOrderRecord o)) o.id).isSome = true
  rw [show o.id = (toOrderRecord o).wooCommerceId from rfl,
    lookupOrder_upsertOrder_self]
  rfl

/-- Witness for the amended C4: the concrete failing-backfill run. -/
theorem claim_backfill_failure_logged_not_counted_witness :
    envC4.orderWriteFails 1 = false
    ∧ (processOrder envC4 (initState emptyStore) (mkOrder 1 [mkItem 7])).synced = 0 + 1
    ∧ (processOrder envC4 (initState emptyStore) (mkOrder 1 [mkItem 7])).errors = 0 := by
  have h := claim_backfill_failure_logged_not_counted envC4 (initState emptyStore)
    (mkOrder 1 [mkItem 7]) (by decide)
  exact ⟨by decide, h.1, h.2.1⟩

/-- C3: per-record fault isolation — over any processed page, the synced tally
gains exactly the records whose upsert did not throw and the errors tally
exactly those whose upsert threw (so one failure never aborts the rest), every
non-failing record of the page ends up stored under its identifier, and the
concrete page of 3 with only the 2nd record failing yields synced 2, errors 1. -/
theorem claim_per_record_isolation :
    (∀ (env : SyncEnv) (st : PassState) (l : List WooCommerceOrder),
      (processPage env st l).synced
          = st.synced + (l.filter (fun o => !env.orderWriteFails o.id)).length
      ∧ (processPage env st l).errors
          = st.errors + (l.filter (fun o => env.orderWriteFails o.id)).length
      ∧ ∀ o ∈ l, env.orderWriteFails o.id = false →
          (lookupOrder (processPage env st l).store.orders o.id).isSome = true)
    ∧ ((processPage env3 (initState emptyStore) page3).synced = 2
      ∧ (processPage env3 (initState emptyStore) page3).errors = 1) := by
  constructor
  · intro env st l
    refine ⟨processPage_synced env st l, processPage_errors env st l, ?_⟩
    intro o hmem hw
    rw [processPage_store, applyOrders_orders]
    exact isSome_lookupOrder_ordersAfter_of_mem env st.store.orders l o hmem hw
  · exact ⟨by decide, by decide⟩

/-- Witness for C3: the general statement applied to the concrete page of 3
whose 2nd record fails; record 1 is not failing and ends up in the store. -/
theorem claim_per_record_isolation_witness :
    env3.orderWriteFails (mkOrder 1 []).id = false
    ∧ (lookupOrder (processPage env3 (initState emptyStore) page3).store.orders
        (mkOrder 1 []).id).isSome = true := by
  refine ⟨by decide, ?_⟩
  exact (claim_per_record_isolation.1 env3 (initState emptyStore) page3).2.2
    (mkOrder 1 []) (by decide) (by decide)

set_option maxRecDepth 1000000 in
/-- C2: pagination termination — whenever every page up to some page `k` is
served successfully and page `k` is short (or empty), the pass completes
normally with at most `k` fetch calls, for any fuel at least `k` (so the
embedded fuel is immaterial: the `while (true)` loop stops on its own); and
on the concrete 150-record stream served as pages of 100 and 50 the pass
makes exactly 2 fetch calls, never requests a 3rd page (page 3 of `env150`
would fail, yet the outcome is normal completion), and returns
synced 150, errors 0. -/
theorem claim_pagination_termination :
    (∀ (env : SyncEnv) (s : Store) (k fuel : Nat), 1 ≤ k →
      (∀ p, 1 ≤ p → p ≤ k → ∃ l, env.fetchOrdersPage p = Except.ok l) →
      (∀ l, env.fetchOrdersPage k = Except.ok l → l.length < perPage) →
      k ≤ fuel →
      ∃ st, syncOrders env fuel s = .ok st ∧ st.fetchCalls ≤ k)
    ∧ ((syncOrders env150 3 emptyStore).isOkOutcome = true
      ∧ (syncOrders env150 3 emptyStore).state.fetchCalls = 2
      ∧ (syncOrders env150 3 emptyStore).state.synced = 150
      ∧ (syncOrders env150 3 emptyStore).state.errors = 0) := by
  constructor
  · intro env s k fuel h1 hok hshort hfuel
    obtain ⟨st, hrun, hcalls⟩ :=
      syncLoop_short_ok env k fuel 1 (initState s) le_rfl h1 hok hshort (by omega)
    refine ⟨st, hrun, ?_⟩
    have h0 : (initState s).fetchCalls = 0 := rfl
    omega
  · refine ⟨?_, ?_, ?_, ?_⟩ <;> decide

set_option maxRecDepth 1000000 in
/-- Witness for C2: the general termination statement instantiated on the
150-record stream with `k = 2` and fuel 3. -/
theorem claim_pagination_termination_witness :
    ∃ st, syncOrders env150 3 emptyStore = .ok st ∧ st.fetchCalls ≤ 2 := by
  apply claim_pagination_termination.1 env150 emptyStore 2 3 (by omega)
  · intro p h1 h2
    interval_cases p
    · exact ⟨_, rfl⟩
    · exact ⟨_, rfl⟩
  · intro l hl
    have : l = (List.range 50).map (fun i => mkOrder (100 + i) []) :=
      (Except.ok.inj hl).symm
    subst this
    decide
  · omega

/-- C7: the only failure that escapes a sync pass is a page-fetch failure —
if every page fetch succeeds the outcome is never the rethrown fetch failure;
and when the outcome is the rethrown fetch failure, some page `N` failed to
fetch while every record of every earlier successfully fetched page whose
upsert did not throw is still committed in the resulting store (no rollback). -/
theorem claim_fetch_failure_only_fatal (env : SyncEnv) (fuel : Nat) (s : Store) :
    ((∀ p, exceptFailed (env.fetchOrdersPage p) = false) →
      (syncOrders env fuel s).isFetchFailed = false)
    ∧ ((syncOrders env fuel s).isFetchFailed = true →
      ∃ N, 1 ≤ N ∧ exceptFailed (env.fetchOrdersPage N) = true ∧
        ∀ p lp o, 1 ≤ p → p < N → env.fetchOrdersPage p = Except.ok lp → o ∈ lp →
          env.orderWriteFails o.id = false →
          (lookupOrder (syncOrders env fuel s).state.store.orders o.id).isSome = true) := by
  constructor
  · intro h
    exact syncLoop_no_fetchFailed env h fuel 1 (initState s)
  · intro hf
    obtain ⟨_, N, hN1, hN2, hN3⟩ := syncLoop_fetchFailed_analysis env fuel 1 (initState s) hf
    exact ⟨N, hN1, hN2, hN3⟩

set_option maxRecDepth 1000000 in
/-- Witness for C7: a full first page followed by a failing second fetch ends
as the rethrown fetch failure, and the analysis applies; record 0 of page 1 is
still committed. -/
theorem claim_fetch_failure_only_fatal_witness :
    (syncOrders envC7 2 emptyStore).isFetchFailed = true
    ∧ (∃ N, 1 ≤ N ∧ exceptFailed (envC7.fetchOrdersPage N) = true ∧
        ∀ p lp o, 1 ≤ p → p < N → envC7.fetchOrdersPage p = Except.ok lp → o ∈ lp →
          envC7.orderWriteFails o.id = false →
          (lookupOrder (syncOrders envC7 2 emptyStore).state.store.orders o.id).isSome = true) := by
  refine ⟨by decide, ?_⟩
  exact (claim_fetch_failure_only_fatal envC7 2 emptyStore).2 (by decide)

/-- C8: exactly one local record per distinct remote identifier — starting
from a store whose collections are duplicate-free on the remote key (the
schema's unique index), any sequence of sync passes and retention passes
leaves, for every identifier, at most one Transaction Record and at most one
Catalog Record with that identifier (writes are upserts keyed on the
identifier, never duplicate inserts). -/
theorem claim_upsert_uniqueness (s : Store) (passes : List StorePass)
    (ho : (orderKeys s.orders).Nodup) (hp : (productKeys s.products).Nodup) :
    (∀ k, ((passes.foldl applyPass s).orders.filter
        (fun o => o.wooCommerceId == k)).length ≤ 1)
    ∧ (∀ k, ((passes.foldl applyPass s).products.filter
        (fun p => p.wooCommerceId == k)).length ≤ 1) := by
  obtain ⟨ho', hp'⟩ := nodup_foldPasses passes s ho hp
  constructor
  · intro k
    exact countKey_le_one_of_nodup (fun o : OrderRecord => o.wooCommerceId) _ k ho'
  · intro k
    exact countKey_le_one_of_nodup (fun p : ProductRecord => p.wooCommerceId) _ k hp'

set_option maxRecDepth 1000000 in
/-- Witness for C8: the empty store run through a sync pass followed by a
retention pass. -/
theorem claim_upsert_uniqueness_witness :
    (([StorePass.sync envC5 2, StorePass.retention cenvOK 5].foldl
        applyPass emptyStore).orders.filter (fun o => o.wooCommerceId == 1)).length ≤ 1 :=
  (claim_upsert_uniqueness emptyStore
    [StorePass.sync envC5 2, StorePass.retention cenvOK 5] (by decide) (by decide)).1 1

/-- C1: retention safety — any catalog record the retention pass deletes
(present before, absent after) is unreferenced by every surviving order: the
phase-2 existence check runs against the transaction store as it stands after
phase 1's deletions (which is exactly the store the pass returns), so no
catalog record is deleted while a surviving order still references it. -/
theorem claim_retention_safety (env : CleanupEnv) (threshold : Nat) (s : Store)
    (pid : Nat) (hbefore : (lookupProduct s.products pid).isSome = true)
    (hafter : lookupProduct (cleanupOldOrders env threshold s).1.products pid = none) :
    ∀ o ∈ (cleanupOldOrders env threshold s).1.orders, referencesProduct o pid = false := by
  intro o ho
  cases hro : referencesProduct o pid with
  | false => rfl
  | true =>
    exfalso
    rw [cleanupOldOrders_orders_eq] at ho
    have hsome := cleanupUnusedProducts_keeps_referenced env
      ((s.orders.filter (fun o => o.last_modified < threshold)).foldl
        (phase1Step env) (s.orders, 0, [])).1
      s.products
      ((s.orders.filter (fun o => o.last_modified < threshold)).foldl
        (phase1Step env) (s.orders, 0, [])).2.2
      pid hbefore ⟨o, ho, hro⟩
    rw [← cleanupOldOrders_products_eq] at hsome
    rw [hafter] at hsome
    simp at hsome

/-- Witness for C1: the stale order referencing product 10 is deleted, product
10 is then pruned, and indeed no surviving order references it. -/
theorem claim_retention_safety_witness :
    (lookupProduct stC1.products 10).isSome = true
    ∧ lookupProduct (cleanupOldOrders cenvOK 5 stC1).1.products 10 = none
    ∧ ∀ o ∈ (cleanupOldOrders cenvOK 5 stC1).1.orders, referencesProduct o 10 = false :=
  ⟨by decide, by decide, claim_retention_safety cenvOK 5 stC1 10 (by decide) (by decide)⟩

/-- C10: the retention pass deletes a catalog record only if its identifier
occurs in the line items of an order selected for deletion in phase 1 (the
candidate set), and every catalog record whose identifier is not in the
candidate set is left unchanged, whatever its age; the product collection only
ever shrinks (it is a sublist of the original). -/
theorem claim_retention_candidate_frame (env : CleanupEnv) (threshold : Nat)
    (s : Store) (pid : Nat) :
    ((lookupProduct s.products pid).isSome = true →
      lookupProduct (cleanupOldOrders env threshold s).1.products pid = none →
      pid ∈ retentionCandidates threshold s.orders)
    ∧ (pid ∉ retentionCandidates threshold s.orders →
      lookupProduct (cleanupOldOrders env threshold s).1.products pid
        = lookupProduct s.products pid)
    ∧ ((cleanupOldOrders env threshold s).1.products).Sublist s.products := by
  have hcand : ((s.orders.filter (fun o => o.last_modified < threshold)).foldl
      (phase1Step env) (s.orders, 0, [])).2.2 = retentionCandidates threshold s.orders :=
    cleanupOldOrders_candidates env threshold s
  have hframe : ∀ pid2, pid2 ∉ retentionCandidates threshold s.orders →
      lookupProduct (cleanupOldOrders env threshold s).1.products pid2
        = lookupProduct s.products pid2 := by
    intro pid2 hmem
    rw [cleanupOldOrders_products_eq]
    apply cleanupUnusedProducts_lookup_of_not_mem
    rw [hcand]
    exact hmem
  refine ⟨?_, hframe pid, ?_⟩
  · intro hsome hnone
    by_contra hmem
    rw [hframe pid hmem] at hnone
    rw [hnone] at hsome
    simp at hsome
  · rw [cleanupOldOrders_products_eq]
    exact cleanupUnusedProducts_sublist env _ s.products _

/-- Witness for C10: deleted product 10 is in the candidate set; product 99,
not referenced by any selected order, is untouched. -/
theorem claim_retention_candidate_frame_witness :
    (10 ∈ retentionCandidates 5 stC1.orders)
    ∧ lookupProduct (cleanupOldOrders cenvOK 5 stC1).1.products 99
        = lookupProduct stC1.products 99 :=
  ⟨(claim_retention_candidate_frame cenvOK 5 stC1 10).1 (by decide) (by decide),
   (claim_retention_candidate_frame cenvOK 5 stC1 99).2.1 (by decide)⟩

/-- C5: idempotency — when a sync pass over a well-formed remote (fetching a
catalog identifier returns a record with that identifier) completes normally
from a store with duplicate-free order keys, running the pass again on the
resulting store completes normally and leaves the store exactly as the first
run left it: every order upsert overwrites a record with the identical record
(including the remote-reported last-modified), and every backfill either
skips an identifier already present or fails exactly as it failed before. -/
theorem claim_sync_idempotent (env : SyncEnv) (fuel : Nat) (s : Store) (st1 : PassState)
    (hWF : ∀ pid p, env.fetchProduct pid = Except.ok p → p.id = pid)
    (hnd : (orderKeys s.orders).Nodup)
    (h1 : syncOrders env fuel s = .ok st1) :
    ∃ st2, syncOrders env fuel st1.store = .ok st2 ∧ st2.store = st1.store := by
  obtain ⟨L, hL⟩ := syncLoop_store env fuel 1
  have htag := syncLoop_tag_const env fuel 1 (initState st1.store) (initState s)
  have hrun1 : syncLoop env fuel 1 (initState s) = .ok st1 := h1
  cases hr2 : syncLoop env fuel 1 (initState st1.store) with
  | ok st2 =>
    refine ⟨st2, hr2, ?_⟩
    have e1 : st1.store = applyOrders env s L := by
      have h := hL (initState s)
      rw [hrun1] at h
      exact h
    have e2 : st2.store = applyOrders env st1.store L := by
      have h := hL (initState st1.store)
      rw [hr2] at h
      exact h
    rw [e2, e1]
    exact applyOrders_idem env s L hnd hWF
  | fetchFailed st2 =>
    rw [hr2, hrun1] at htag
    exact absurd htag (by simp [PassOutcome.tag])
  | fuelOut st2 =>
    rw [hr2, hrun1] at htag
    exact absurd htag (by simp [PassOutcome.tag])

/-- Witness for C5: the concrete single-order, single-backfill run, repeated
on its own result. -/
theorem claim_sync_idempotent_witness :
    ∃ st2, syncOrders envC5 2 stC5.store = .ok st2 ∧ st2.store = stC5.store := by
  apply claim_sync_idempotent envC5 2 emptyStore stC5
  · intro pid p h
    by_cases hp : pid = 5
    · subst hp
      have h2 : mkProduct 5 = p := by simpa [envC5] using h
      rw [← h2]
      rfl
    · exfalso
      simp [envC5, hp] at h
  · decide
  · decide
